import Mathlib

/-!
Verification of the data-acquisition and playback-state engine of the
real-estate slideshow repository (src/api.js, src/slideshow.js and the
PropertySlideshow variants in src/unnamed/part_001).

The JavaScript is shallowly embedded: JS values occurring as raw feed data
and option fields are modelled by an inductive `JSValue`, strings are Lean
strings, JS Maps and objects are association lists in insertion order, and
the asynchronous network is an explicit oracle argument.  JS numbers are
modelled by `Dec`, an exact decimal (mantissa over a power of ten): every
numeric value a claim touches is a finite decimal literal, so machine
floating point plays no role.
-/

set_option maxRecDepth 10000

namespace Slides

/-- Exact decimal number `mant / 10 ^ exp`, the model of the JS numbers
occurring in this codebase (all are finite decimal literals). -/
structure Dec where
  mant : Int
  exp : Nat
deriving DecidableEq, Repr

/-- Truncation toward zero, which is what `parseInt` extracts from a
finite decimal number (stringify then digit-prefix parse truncates). -/
def Dec.trunc (d : Dec) : Int :=
  d.mant.tdiv ((10 : Int) ^ d.exp)

/-- Rounding half away from zero, the default rounding performed by
`Intl.NumberFormat` with `maximumFractionDigits: 0`. -/
def Dec.roundHalfAway (d : Dec) : Int :=
  if d.exp = 0 then d.mant
  else
    let p : Int := (10 : Int) ^ d.exp
    if 0 ≤ d.mant then (d.mant + p.tdiv 2).tdiv p
    else -((-d.mant + p.tdiv 2).tdiv p)

/-- JS value as it occurs in the JSON feed and in option objects. -/
inductive JSValue where
  | undef : JSValue
  | null : JSValue
  | num (d : Dec) : JSValue
  | str (s : String) : JSValue
  | bool (b : Bool) : JSValue
deriving DecidableEq, Repr

/-- JS truthiness: `undefined`, `null`, `0`, the empty string and `false`
are falsy, everything else in our value domain is truthy. -/
def truthy : JSValue → Bool
  | .undef => false
  | .null => false
  | .num d => d.mant != 0
  | .str s => s != ""
  | .bool b => b

/-- JS `a || b` restricted to value results (short-circuits on truthiness). -/
def jsOr (a b : JSValue) : JSValue :=
  if truthy a then a else b

/-- Digit value of a decimal digit character. -/
def digToNat (c : Char) : Nat :=
  c.toNat - 48

/-- Decimal reading of a digit list, most significant first. -/
def natOfDigits (cs : List Char) : Nat :=
  cs.foldl (fun a c => 10 * a + digToNat c) 0

/-- Read a decimal numeral `digits [. digits]` at the front of the list;
returns the value and the unconsumed rest, or `none` when no digit is
present (the numeral grammar shared by `Number` and `parseFloat`;
exotic forms — whitespace padding, hex, exponents — do not occur in this
codebase and are outside the model). -/
def takeNum (cs : List Char) : Option Dec × List Char :=
  let intDigits := cs.takeWhile (fun c => c.isDigit)
  let rest1 := cs.drop intDigits.length
  match rest1 with
  | '.' :: rest2 =>
    let fracDigits := rest2.takeWhile (fun c => c.isDigit)
    let rest3 := rest2.drop fracDigits.length
    if intDigits = [] ∧ fracDigits = [] then (none, cs)
    else (some ⟨(natOfDigits (intDigits ++ fracDigits) : Int), fracDigits.length⟩, rest3)
  | _ =>
    if intDigits = [] then (none, cs)
    else (some ⟨(natOfDigits intDigits : Int), 0⟩, rest1)

/-- Strip an optional leading sign; returns (isNegative, rest). -/
def signSplit : List Char → Bool × List Char
  | '-' :: cs => (true, cs)
  | '+' :: cs => (false, cs)
  | cs => (false, cs)

/-- Negation of an exact decimal. -/
def Dec.neg (d : Dec) : Dec :=
  ⟨-d.mant, d.exp⟩

/-- Model of `parseFloat` on a string: sign then the longest numeral prefix;
`NaN` (`none`) when no digit starts the numeral. -/
def parseFloatL (cs : List Char) : Option Dec :=
  let p := signSplit cs
  match (takeNum p.2).1 with
  | some d => some (if p.1 then d.neg else d)
  | none => none

/-- Model of the `Number` coercion of a string: the whole string must be a signed
numeral; the empty string coerces to 0. -/
def strictNumL (cs : List Char) : Option Dec :=
  if cs = [] then some ⟨0, 0⟩
  else
    let p := signSplit cs
    match takeNum p.2 with
    | (some d, []) => some (if p.1 then d.neg else d)
    | _ => none

/-- Model of `parseInt` on a string: sign then the longest digit prefix, `NaN`
(`none`) when no digit follows the sign. -/
def parseIntL (cs : List Char) : Option Int :=
  let p := signSplit cs
  let ds := p.2.takeWhile (fun c => c.isDigit)
  if ds = [] then none else
    some (if p.1 then -(natOfDigits ds : Int) else (natOfDigits ds : Int))

/-- Model of the `Number` coercion of a value (`isNaN` of `v` is `(jsToNumber v).isNone`). -/
def jsToNumber : JSValue → Option Dec
  | .num d => some d
  | .str s => strictNumL s.data
  | .bool b => some ⟨cond b 1 0, 0⟩
  | .null => some ⟨0, 0⟩
  | .undef => none

/-- Model of `parseInt` on a value: numbers are truncated toward zero, strings are parsed
by digit prefix, every other value is `NaN`. -/
def parseIntJS : JSValue → Option Int
  | .num d => some d.trunc
  | .str s => parseIntL s.data
  | _ => none

/-- Model of `parseFloat` on a value: numbers pass through, strings are prefix-parsed,
every other value is `NaN`. -/
def parseFloatJS : JSValue → Option Dec
  | .num d => some d
  | .str s => parseFloatL s.data
  | _ => none

/-- Fuel-driven comma grouping of a reversed digit list (three digits per
group, as the en-US integer number format renders integers). -/
def groupRevF : Nat → List Char → List Char
  | 0, cs => cs
  | fuel + 1, cs =>
    if cs.length ≤ 3 then cs
    else cs.take 3 ++ ',' :: groupRevF fuel (cs.drop 3)

/-- Comma grouping of a reversed digit list. -/
def groupRev (cs : List Char) : List Char :=
  groupRevF cs.length cs

/-- Decimal digits of a natural number with en-US thousands separators. -/
def usdDigits (n : Nat) : String :=
  String.mk ((groupRev (Nat.repr n).data.reverse).reverse)

/-- Fixed-locale en-US USD currency formatting with zero fraction
digits, applied to an integer `n`. -/
def formatUSD (n : Int) : String :=
  if n < 0 then "-$" ++ usdDigits n.natAbs else "$" ++ usdDigits n.natAbs

/-- The sentinel returned for absent, zero and non-numeric prices
(src/api.js, formatPrice). -/
def priceSentinel : String := "Price on request"

/-- src/api.js `formatPrice`: falsy or `isNaN` input yields the sentinel,
otherwise `parseFloat` then fixed-locale integer currency formatting
(`format(NaN)` renders the dollar sign followed by NaN). -/
def formatPrice (price : JSValue) : String :=
  if !truthy price || (jsToNumber price).isNone then priceSentinel
  else
    match parseFloatJS price with
    | some d => formatUSD d.roundHalfAway
    | none => "$NaN"

/-- Raw property record as delivered by the JSON feed: each field of the
record is a JS value, an absent field reads as `undefined`
(src/api.js, normalizeProperty reads exactly these keys). -/
structure RawProperty where
  id : JSValue := .undef
  property_id : JSValue := .undef
  title : JSValue := .undef
  name : JSValue := .undef
  price : JSValue := .undef
  address : JSValue := .undef
  city : JSValue := .undef
  state : JSValue := .undef
  zip : JSValue := .undef
  postal_code : JSValue := .undef
  country : JSValue := .undef
  bedrooms : JSValue := .undef
  beds : JSValue := .undef
  bathrooms : JSValue := .undef
  baths : JSValue := .undef
  area : JSValue := .undef
  square_feet : JSValue := .undef
  type : JSValue := .undef
  property_type : JSValue := .undef
  year_built : JSValue := .undef
  built_year : JSValue := .undef
  garage_spaces : JSValue := .undef
  garage : JSValue := .undef
  description : JSValue := .undef
  status : JSValue := .undef
deriving DecidableEq, Repr

/-- Normalized location block (src/api.js, normalizeProperty). -/
structure PLocation where
  address : JSValue
  city : JSValue
  state : JSValue
  zip : JSValue
  country : JSValue
deriving DecidableEq, Repr

/-- Normalized features block; `parseInt`/`parseFloat` results are
`Option` values with `none` standing for `NaN`
(src/api.js, normalizeProperty). -/
structure Features where
  bedrooms : Option Int
  bathrooms : Option Dec
  area : Option Int
  type : JSValue
  yearBuilt : Option Int
  garage : Option Int
deriving DecidableEq, Repr

/-- Normalized listing (src/api.js, normalizeProperty).  The `images`
field is always initialised to the empty list; the `createdAt`/`updatedAt`
wall-clock timestamps are outside the model (no claim mentions them). -/
structure Listing where
  id : JSValue
  title : JSValue
  price : String
  location : PLocation
  features : Features
  description : JSValue
  status : JSValue
  images : List JSValue := []
deriving DecidableEq, Repr

/-- src/api.js `normalizeProperty`, called as a proper method (as
`fetchProperty` does): field-by-field defaulting with alternate key
names, `parseInt`/`parseFloat` coercion of the numeric features and
`formatPrice` for the price. -/
def normalizeProperty (p : RawProperty) : Listing :=
  { id := jsOr p.id p.property_id
    title := jsOr (jsOr p.title p.name) (.str "Untitled Property")
    price := formatPrice p.price
    location :=
      { address := jsOr p.address (.str "")
        city := jsOr p.city (.str "")
        state := jsOr p.state (.str "")
        zip := jsOr (jsOr p.zip p.postal_code) (.str "")
        country := jsOr p.country (.str "US") }
    features :=
      { bedrooms := parseIntJS (jsOr (jsOr p.bedrooms p.beds) (.num ⟨0, 0⟩))
        bathrooms := parseFloatJS (jsOr (jsOr p.bathrooms p.baths) (.num ⟨0, 0⟩))
        area := parseIntJS (jsOr (jsOr p.area p.square_feet) (.num ⟨0, 0⟩))
        type := jsOr (jsOr p.type p.property_type) (.str "Unknown")
        yearBuilt := parseIntJS (jsOr (jsOr p.year_built p.built_year) (.num ⟨0, 0⟩))
        garage := parseIntJS (jsOr (jsOr p.garage_spaces p.garage) (.num ⟨0, 0⟩)) }
    description := jsOr p.description (.str "")
    status := jsOr p.status (.str "available")
    images := [] }

/-- src/api.js `getMockProperties`: the fixed built-in sample data
returned when the network path fails (timestamps outside the model). -/
def mockProperties : List Listing :=
  [ { id := .num ⟨1, 0⟩
      title := .str "Luxury Waterfront Villa"
      price := "$2,850,000"
      location :=
        { address := .str "123 Ocean Drive", city := .str "Miami Beach"
          state := .str "FL", zip := .str "33139", country := .str "US" }
      features :=
        { bedrooms := some 5, bathrooms := some ⟨45, 1⟩, area := some 4200
          type := .str "Villa", yearBuilt := some 2018, garage := some 3 }
      description := .str "Stunning waterfront villa with panoramic ocean views, private beach access, and state-of-the-art amenities. This architectural masterpiece features floor-to-ceiling windows, an infinity pool, and a gourmet kitchen perfect for entertaining."
      status := .str "available"
      images := [] },
    { id := .num ⟨2, 0⟩
      title := .str "Modern Downtown Penthouse"
      price := "$1,650,000"
      location :=
        { address := .str "456 High Street", city := .str "Seattle"
          state := .str "WA", zip := .str "98101", country := .str "US" }
      features :=
        { bedrooms := some 3, bathrooms := some ⟨3, 0⟩, area := some 2800
          type := .str "Penthouse", yearBuilt := some 2020, garage := some 2 }
      description := .str "Sophisticated penthouse in the heart of downtown with breathtaking city skyline views. Features include a private rooftop terrace, smart home technology, and premium finishes throughout."
      status := .str "available"
      images := [] },
    { id := .num ⟨3, 0⟩
      title := .str "Charming Victorian Home"
      price := "$875,000"
      location :=
        { address := .str "789 Elm Avenue", city := .str "San Francisco"
          state := .str "CA", zip := .str "94102", country := .str "US" }
      features :=
        { bedrooms := some 4, bathrooms := some ⟨2, 0⟩, area := some 2100
          type := .str "Victorian", yearBuilt := some 1895, garage := some 1 }
      description := .str "Beautifully restored Victorian home with original hardwood floors, ornate moldings, and modern updates. Located in a quiet neighborhood with tree-lined streets and excellent schools nearby."
      status := .str "available"
      images := [] } ]

/-! Association lists model JS objects and Maps in insertion order. -/

/-- Lookup of the first binding of a key. -/
def lookupA {β : Type} (l : List (String × β)) (k : String) : Option β :=
  (l.find? (fun p => p.1 == k)).map (fun p => p.2)

/-- JS property access on an option object: absent keys read `undefined`. -/
def optGet (o : List (String × JSValue)) (k : String) : JSValue :=
  match lookupA o k with
  | none => JSValue.undef
  | some v => v

/-- Assignment of one key (JS object-literal / `Map.set` semantics: an
existing binding is overwritten in place, a new one is appended). -/
def upsert {β : Type} (l : List (String × β)) (k : String) (v : β) :
    List (String × β) :=
  if l.any (fun p => p.1 == k) then
    l.map (fun p => if p.1 == k then (k, v) else p)
  else l ++ [(k, v)]

/-- Object spread: assign each binding of `o` onto `base` in order,
modelling `{limit: ..., offset: ..., ...options}`. -/
def objAssign {β : Type} (base o : List (String × β)) : List (String × β) :=
  o.foldl (fun acc p => upsert acc p.1 p.2) base

/-- Decimal string of an integer. -/
def intStr (n : Int) : String :=
  if n < 0 then "-" ++ Nat.repr n.natAbs else Nat.repr n.natAbs

/-- Stringification performed by `URLSearchParams` (and by template
literals) on the values of this codebase.  Every numeric option value in
the repository is an integer; the fractional branch marks off-model
inputs and never arises in a claim. -/
def urlVal : JSValue → String
  | .num d => if d.exp = 0 then intStr d.mant
              else intStr d.mant ++ "e-" ++ Nat.repr d.exp
  | .str s => s
  | .bool b => cond b "true" "false"
  | .null => "null"
  | .undef => "undefined"

/-- Options object of `fetchProperties` as an insertion-ordered record. -/
abbrev Options : Type := List (String × JSValue)

/-- The object literal `{limit: options.limit || 50, offset:
options.offset || 0, ...options}` of src/api.js fetchProperties (note
the spread re-assigns a caller-supplied `limit`/`offset` verbatim,
overwriting the defaulted value). -/
def buildParamsJS (o : Options) : List (String × JSValue) :=
  objAssign
    [("limit", jsOr (optGet o "limit") (.num ⟨50, 0⟩)),
     ("offset", jsOr (optGet o "offset") (.num ⟨0, 0⟩))] o

/-- Parameter list after `URLSearchParams` stringification. -/
def stringParams (o : Options) : List (String × String) :=
  (buildParamsJS o).map (fun p => (p.1, urlVal p.2))

/-- One `key=value` component (URL encoding is the identity on the
alphabets appearing in this codebase and is not modelled). -/
def encPair (p : String × String) : List Char :=
  p.1.data ++ '=' :: p.2.data

/-- Serialization performed by URLSearchParams: components joined by ampersands. -/
def serParams : List (String × String) → List Char
  | [] => []
  | [p] => encPair p
  | p :: q :: ps => encPair p ++ '&' :: serParams (q :: ps)

/-- Serialized query string of an options object. -/
def paramsStr (o : Options) : String :=
  String.mk (serParams (stringParams o))

/-- Cache key of a bulk fetch (src/api.js line 30). -/
def cacheKeyProps (o : Options) : String :=
  "properties_" ++ paramsStr o

/-- Request URL of a bulk fetch (src/api.js line 39; baseUrl is /api). -/
def requestUrl (o : Options) : String :=
  "/api" ++ "/properties?" ++ paramsStr o

/-- Error values surfaced by the embedded code paths. -/
inductive JsError where
  | typeError : JsError
  | httpError (status : Nat) : JsError
  | networkError : JsError
  | loadFailure : JsError
  | noProperties : JsError
deriving DecidableEq, Repr

/-- Outcome of one whole `fetchWithRetry` + `response.json()` round for a
bulk fetch, abstracted as an oracle (the retry loop itself is modelled
separately below). -/
inductive NetResult where
  | success (raws : List RawProperty) : NetResult
  | failure (e : JsError) : NetResult
deriving DecidableEq, Repr

/-- src/api.js line 43 calls `properties.map(this.normalizeProperty)`.
The method is passed unbound, so inside it `this` is `undefined` (class
bodies are strict mode) and the very first use, `this.formatPrice`,
throws a TypeError.  The map therefore fails on the first element; on an
empty array the callback is never invoked. -/
def normalizeUnbound : RawProperty → Except JsError Listing :=
  fun _ => .error .typeError

deriving instance DecidableEq for Except

/-- Result of one modelled `fetchProperties` call: the value returned or
error thrown, the cache afterwards, and whether the network was hit.
The source keeps one Map for all cache entries; its key prefixes
(properties_/property_/images_) make the key spaces disjoint, so the
bulk-fetch entries are modelled as their own typed map. -/
structure FetchListRes where
  result : Except JsError (List Listing)
  cache : List (String × List Listing)
  networkUsed : Bool
deriving DecidableEq, Repr

/-- src/api.js `fetchProperties`: cache check, network via the oracle,
the (failing) unbound normalization map, caching of the success result,
and the mock-data fallback controlled by `options.useMockData !== false`. -/
def fetchPropertiesM (c : List (String × List Listing)) (o : Options)
    (net : NetResult) : FetchListRes :=
  let key := cacheKeyProps o
  match lookupA c key with
  | some l => ⟨.ok l, c, false⟩
  | none =>
    let fallback : FetchListRes :=
      if optGet o "useMockData" = .bool false then ⟨.error .loadFailure, c, true⟩
      else ⟨.ok mockProperties, c, true⟩
    match net with
    | .success raws =>
      match raws.mapM normalizeUnbound with
      | .ok norm => ⟨.ok norm, upsert c key norm, true⟩
      | .error _ => fallback
    | .failure _ => fallback

/-- src/api.js `fetchProperty`: cache check, network, bound (working)
normalization, caching; on failure the error is rethrown — there is no
mock fallback (single-listing cache entries modelled as their own typed
map, see `FetchListRes`). -/
def fetchPropertyM (c : List (String × Listing)) (id : JSValue)
    (net : Except JsError RawProperty) :
    Except JsError Listing × List (String × Listing) × Bool :=
  let key := "property_" ++ urlVal id
  match lookupA c key with
  | some p => (.ok p, c, false)
  | none =>
    match net with
    | .ok raw =>
      let p := normalizeProperty raw
      (.ok p, upsert c key p, true)
    | .error e => (.error e, c, true)

/-- The raw record of the end-to-end scenario of the spec:
`{id: 1, price: 0, bedrooms: "3"}`. -/
def scenarioRaw : RawProperty :=
  { id := .num ⟨1, 0⟩, price := .num ⟨0, 0⟩, bedrooms := .str "3" }

/-! Retry loop (src/api.js fetchWithRetry). -/

/-- Outcome of a single fetch attempt: a transport-level failure or an
HTTP response with its status code. -/
inductive AttemptOutcome where
  | transportError (e : JsError) : AttemptOutcome
  | response (status : Nat) : AttemptOutcome
deriving DecidableEq, Repr

/-- Success flag of a response: status in the inclusive range 200 to 299. -/
def respOk (status : Nat) : Bool :=
  200 ≤ status && status < 300

/-- An attempt fails on a transport error or a non-2xx status
(src/api.js line 201 throws on `!response.ok`). -/
def attemptFails : AttemptOutcome → Bool
  | .transportError _ => true
  | .response s => !respOk s

/-- The error recorded for a failed attempt. -/
def attemptErr : AttemptOutcome → JsError
  | .transportError e => e
  | .response s => .httpError s

/-- Status of a successful attempt. -/
def statusOf : AttemptOutcome → Nat
  | .response s => s
  | .transportError _ => 0

/-- Retry attempt count of the API instance (src/api.js line 10). -/
def retryAttempts : Nat := 3

/-- Base retry delay of the API instance in milliseconds (src/api.js line 11). -/
def retryDelay : Nat := 1000

/-- Trace of one `fetchWithRetry` run: the value returned or error
thrown, the number of attempts performed, and the list of delays (in
milliseconds, in order) awaited between attempts. -/
structure RetryTrace where
  result : Except JsError Nat
  attempts : Nat
  delays : List Nat
deriving DecidableEq, Repr

/-- The loop body of `fetchWithRetry` from a given attempt number;
`remaining` counts the attempts still allowed including the current one,
so the source guard `attempt < this.retryAttempts` is `1 < remaining`.
The `remaining = 0` base case is unreachable from `fetchWithRetryM`. -/
def retryLoop (oracle : Nat → AttemptOutcome) : Nat → Nat → RetryTrace
  | _, 0 => ⟨.error .networkError, 0, []⟩
  | attempt, remaining + 1 =>
    let o := oracle attempt
    if attemptFails o then
      if 0 < remaining then
        let rest := retryLoop oracle (attempt + 1) remaining
        ⟨rest.result, rest.attempts + 1, retryDelay * attempt :: rest.delays⟩
      else ⟨.error (attemptErr o), 1, []⟩
    else ⟨.ok (statusOf o), 1, []⟩

/-- src/api.js `fetchWithRetry`: up to `retryAttempts` attempts, a delay
of `retryDelay * attempt` after failed attempt `attempt` when more
attempts remain, the last error rethrown after the final failure. -/
def fetchWithRetryM (oracle : Nat → AttemptOutcome) : RetryTrace :=
  retryLoop oracle 1 retryAttempts

/-- Oracle on which every attempt fails at the transport level. -/
def allFailOracle : Nat → AttemptOutcome :=
  fun _ => .transportError .networkError

/-! Playback controller of src/slideshow.js (RealEstateSlideshow). -/

/-- JS number used as a slide index: `none` is `NaN` (which arises from
`(i + 1) % 0`), `some i` a real integer. -/
abbrev JNum : Type := Option Int

/-- Comparison with zero on a JS index; any comparison with NaN is false. -/
def jltZero : JNum → Bool
  | none => false
  | some i => i < 0

/-- Comparison with the length on a JS index; any comparison with NaN is false. -/
def jgeLen : JNum → Nat → Bool
  | none, _ => false
  | some i, n => (n : Int) ≤ i

/-- Strict equality `===` on JS indices; `NaN === x` is always false. -/
def jeq : JNum → JNum → Bool
  | some i, some j => i == j
  | _, _ => false

/-- Strict equality of a JS index with an integer literal. -/
def jeqInt : JNum → Int → Bool
  | some i, k => i == k
  | none, _ => false

/-- Successor on a JS index (NaN propagates). -/
def jadd1 : JNum → JNum :=
  Option.map (fun i => i + 1)

/-- Predecessor on a JS index (NaN propagates). -/
def jsub1 : JNum → JNum :=
  Option.map (fun i => i - 1)

/-- Addition of the length on a JS index (NaN propagates). -/
def jaddLen (j : JNum) (n : Nat) : JNum :=
  j.map (fun i => i + (n : Int))

/-- JS remainder `x % len`: NaN when the divisor is 0 or the dividend is
NaN, otherwise the truncated remainder (sign of the dividend). -/
def jmodLen : JNum → Nat → JNum
  | none, _ => none
  | some i, n => if n = 0 then none else some (i.tmod (n : Int))

/-- State of the RealEstateSlideshow controller: the slide sequence (its
element type is irrelevant to navigation), the current index, the
re-entrancy flag `isLoading`, the play flag, and the auto-advance timer
(`timerOn` mirrors whether an interval is scheduled; `timerGen` counts
the setInterval calls, so a reset is observable). -/
structure REState (α : Type) where
  properties : List α
  currentIndex : JNum
  isLoading : Bool
  isPlaying : Bool
  timerOn : Bool
  timerGen : Nat
deriving DecidableEq

/-- src/slideshow.js `startAutoAdvance`: returns untouched when not
playing, otherwise cancels and reschedules the interval. -/
def startAutoAdvanceRE {α : Type} (s : REState α) : REState α :=
  if s.isPlaying then { s with timerOn := true, timerGen := s.timerGen + 1 }
  else s

/-- src/slideshow.js `resetAutoAdvance`. -/
def resetAutoAdvanceRE {α : Type} (s : REState α) : REState α :=
  if s.isPlaying then startAutoAdvanceRE s else s

/-- src/slideshow.js `displaySlide`: guard `index < 0 || index >=
this.properties.length || this.isLoading`, then the index write.  NaN
passes the guard because both comparisons are false on NaN.  The flag
`isLoading` is raised and lowered again within the same synchronous body
(rendering errors are caught and also lower it), so its net effect is
nil. -/
def displaySlideRE {α : Type} (s : REState α) (index : JNum) : REState α :=
  if jltZero index || jgeLen index s.properties.length || s.isLoading then s
  else { s with currentIndex := index }

/-- src/slideshow.js `goToSlide`: no-op on the current index or while a
transition is in progress; otherwise display the slide and reset the
auto-advance timer when playing (preloading has no controller state). -/
def goToSlideRE {α : Type} (s : REState α) (index : JNum) : REState α :=
  if jeq index s.currentIndex || s.isLoading then s
  else
    let s1 := displaySlideRE s index
    if s1.isPlaying then resetAutoAdvanceRE s1 else s1

/-- src/slideshow.js `nextSlide`: `(currentIndex + 1) %
properties.length` (NaN on an empty sequence). -/
def nextSlideRE {α : Type} (s : REState α) : REState α :=
  goToSlideRE s (jmodLen (jadd1 s.currentIndex) s.properties.length)

/-- src/slideshow.js `previousSlide`: `currentIndex === 0 ? length - 1 :
currentIndex - 1`. -/
def prevSlideRE {α : Type} (s : REState α) : REState α :=
  goToSlideRE s
    (if jeqInt s.currentIndex 0 then some ((s.properties.length : Int) - 1)
     else jsub1 s.currentIndex)

/-- One navigation operation of the public controller interface. -/
inductive NavOp where
  | next : NavOp
  | prev : NavOp
  | goto (i : Int) : NavOp
deriving DecidableEq, Repr

/-- Apply one navigation operation (`goto` receives a real integer, as
the keyboard handlers pass). -/
def stepRE {α : Type} (s : REState α) : NavOp → REState α
  | .next => nextSlideRE s
  | .prev => prevSlideRE s
  | .goto i => goToSlideRE s (some i)

/-- The index invariant claimed for a non-empty sequence: the current
index is a real integer within bounds. -/
def validRE {α : Type} (s : REState α) : Prop :=
  0 < s.properties.length ∧
    ∃ i : Int, s.currentIndex = some i ∧ 0 ≤ i ∧ i < s.properties.length

/-- src/slideshow.js `pause`: clear the play flag and stop the timer. -/
def pauseRE {α : Type} (s : REState α) : REState α :=
  { s with isPlaying := false, timerOn := false }

/-- src/slideshow.js `play`: set the play flag and start the timer. -/
def playRE {α : Type} (s : REState α) : REState α :=
  startAutoAdvanceRE { s with isPlaying := true }

/-- src/slideshow.js `refresh`: pause, clear the API cache, re-fetch,
reset the index to 0, display slide 0, and call `play()` unconditionally
on success; a fetch error or an empty result is caught and leaves the
controller paused (the error surfaces via showError).  Line 477 assigns
`this.properties` from the fetch result before the emptiness check at
line 479, so an empty result overwrites the previous slides with the
empty array before the throw; a fetch rejection happens inside the await
and leaves `this.properties` untouched.  Returns the new controller
state, the API cache afterwards, and the caught error. -/
def refreshRE (s : REState Listing) (net : NetResult) :
    REState Listing × List (String × List Listing) × Option JsError :=
  let s1 := pauseRE s
  let fr := fetchPropertiesM [] [] net
  match fr.result with
  | .error e => (s1, fr.cache, some e)
  | .ok props =>
    let s2 := { s1 with properties := props }
    if props.length = 0 then (s2, fr.cache, some .noProperties)
    else
      let s3 := displaySlideRE { s2 with currentIndex := some 0 } (some 0)
      (playRE s3, fr.cache, none)

/-! Navigation of the PropertySlideshow variants (src/unnamed/part_001).
Only the index state matters here: `goToSlide` writes the index
unconditionally, then updates the display and resets the timer (an
out-of-range index makes updateDisplay throw, but the index write has
already happened and is not rolled back). -/

/-- Index state of a PropertySlideshow. -/
structure PSState (α : Type) where
  properties : List α
  currentIndex : JNum
deriving DecidableEq

/-- part_001 `goToSlide`: unguarded index write. -/
def goToSlidePS {α : Type} (s : PSState α) (index : JNum) : PSState α :=
  { s with currentIndex := index }

/-- part_001 `nextSlide`: `(currentIndex + 1) % properties.length`. -/
def nextSlidePS {α : Type} (s : PSState α) : PSState α :=
  goToSlidePS s (jmodLen (jadd1 s.currentIndex) s.properties.length)

/-- part_001 `previousSlide`: `(currentIndex - 1 + properties.length) %
properties.length`. -/
def prevSlidePS {α : Type} (s : PSState α) : PSState α :=
  goToSlidePS s
    (jmodLen (jaddLen (jsub1 s.currentIndex) s.properties.length)
      s.properties.length)

/-! Timer semantics of the curated PropertySlideshow variant
(src/unnamed/part_001, second copy): message slides schedule a one-shot
auto-advance in addition to the repeating interval. -/

/-- A slide as the timer logic sees it: message flag and the
`displayTime` a message carries (0 models a falsy/absent value). -/
structure MSlide where
  isMessage : Bool
  displayTime : Nat
deriving DecidableEq, Repr

/-- The regular auto-advance interval in milliseconds
(`this.slideInterval`). -/
def slideIntervalMs : Nat := 8000

/-- Timed state: slides, index, play flag, current time, the next tick
of the repeating interval (none when cleared), and the pending one-shot
timeouts scheduled by message slides. -/
structure TState where
  props : List MSlide
  currentIndex : Nat
  isPlaying : Bool
  now : Nat
  intervalNext : Option Nat
  oneShots : List Nat
deriving DecidableEq, Repr

/-- part_001 `startSlideshow`: clear the interval, then schedule a tick
every `slideIntervalMs` when playing. -/
def startSlideshowT (st : TState) : TState :=
  let st1 := { st with intervalNext := none }
  if st1.isPlaying then
    { st1 with intervalNext := some (st1.now + slideIntervalMs) }
  else st1

/-- part_001 `updateDisplay`/`showMessage`: a message slide with a
truthy `displayTime` schedules, while playing, one extra auto-advance
timeout at that duration (the repeating interval is left untouched
here). -/
def updateDisplayT (st : TState) : TState :=
  match st.props[st.currentIndex]? with
  | some sl =>
    if sl.isMessage ∧ sl.displayTime ≠ 0 ∧ st.isPlaying then
      { st with oneShots := st.oneShots ++ [st.now + sl.displayTime] }
    else st
  | none => st

/-- part_001 `goToSlide`: write the index, update the display (possibly
scheduling a message timeout), then reset the interval. -/
def goToSlideT (st : TState) (i : Nat) : TState :=
  startSlideshowT (updateDisplayT { st with currentIndex := i })

/-- part_001 `nextSlide`. -/
def nextSlideT (st : TState) : TState :=
  goToSlideT st ((st.currentIndex + 1) % st.props.length)

/-- Fire a pending one-shot at time `t`: its callback advances only when
still playing. -/
def fireOne (st : TState) (t : Nat) : TState :=
  let st1 := { st with oneShots := st.oneShots.erase t, now := t }
  if st1.isPlaying then nextSlideT st1 else st1

/-- Fire the repeating interval at time `u`: it auto-reschedules, then
its callback advances the slide. -/
def fireInterval (st : TState) (u : Nat) : TState :=
  nextSlideT { st with now := u, intervalNext := some (u + slideIntervalMs) }

/-- Run the earliest pending timer.  On a tie the one-shot fires first
(it was registered before the interval was reset inside goToSlide, and
the event loop runs same-deadline timers in registration order). -/
def fireNext (st : TState) : TState :=
  match st.oneShots.min?, st.intervalNext with
  | none, none => st
  | some t, none => fireOne st t
  | none, some u => fireInterval st u
  | some t, some u => if t ≤ u then fireOne st t else fireInterval st u

/-! Helper lemmas. -/

/-- String concatenation concatenates the underlying character lists. -/
theorem data_append (a b : String) : (a ++ b).data = a.data ++ b.data := by
  cases a
  cases b
  rfl

/-- Strings with equal character lists are equal. -/
theorem str_ext {s t : String} (h : s.data = t.data) : s = t := by
  cases s
  cases t
  exact congrArg String.mk h

/-- Strings with distinct first characters are distinct. -/
theorem ne_of_headDiff {a b : String} (h : a.data.head? ≠ b.data.head?) :
    a ≠ b := by
  intro e
  exact h (by rw [e])

/-- A formatted USD amount starts with a dollar sign or a minus sign, so
it differs from any string starting with another character. -/
theorem formatUSD_ne (n : Int) (y : String)
    (h1 : y.data.head? ≠ some '$') (h2 : y.data.head? ≠ some '-') :
    formatUSD n ≠ y := by
  unfold formatUSD
  split
  · refine ne_of_headDiff ?_
    rw [data_append]
    intro e
    exact h2 (by rw [← e]; rfl)
  · refine ne_of_headDiff ?_
    rw [data_append]
    intro e
    exact h1 (by rw [← e]; rfl)

/-! Claim C4 (corrected). -/

/-- C4, counterexample: the claim says the normalized price is the
sentinel exactly when the raw price is absent, zero or non-numeric; but
a zero price supplied as the string "0" — a numeric value equal to zero
under the lenient coercion the spec prescribes — is truthy, passes the
`isNaN` test and is formatted as "$0" instead of the sentinel. -/
theorem formatPrice_zero_string_cex :
    jsToNumber (JSValue.str "0") = some ⟨0, 0⟩ ∧
      formatPrice (JSValue.str "0") = "$0" ∧
      formatPrice (JSValue.str "0") ≠ priceSentinel := by
  refine ⟨by decide, by decide, by decide⟩

/-- C4, amended: `formatPrice` yields the sentinel exactly when the raw
price is falsy (absent, `null`, the number 0, the empty string, `false`)
or fails `Number` coercion (`isNaN`); a zero written as a non-empty
numeral string such as "0" is instead formatted as "$0".  The result is
never the bare string "0" nor the bare string "NaN". -/
theorem formatPrice_sentinel_amended (v : JSValue) :
    (formatPrice v = priceSentinel ↔
      (truthy v = false ∨ jsToNumber v = none)) ∧
      formatPrice v ≠ "0" ∧ formatPrice v ≠ "NaN" := by
  by_cases h : (!truthy v || (jsToNumber v).isNone) = true
  · have hs : formatPrice v = priceSentinel := by
      unfold formatPrice
      rw [h]
      rfl
    refine ⟨⟨fun _ => ?_, fun _ => hs⟩, ?_, ?_⟩
    · rcases Bool.or_eq_true_iff.mp h with h1 | h1
      · exact Or.inl (by simpa using h1)
      · exact Or.inr (Option.isNone_iff_eq_none.mp h1)
    · rw [hs]; decide
    · rw [hs]; decide
  · have hboth : truthy v = true ∧ ¬ jsToNumber v = none := by
      simpa using h
    have hT : truthy v = true := hboth.1
    have hN : jsToNumber v ≠ none := hboth.2
    have h2 : (!truthy v || (jsToNumber v).isNone) = false := by
      simp [hT, Option.isNone_iff_eq_none, hN, Option.isSome_iff_ne_none]
    have hval : formatPrice v =
        (match parseFloatJS v with
          | some d => formatUSD d.roundHalfAway
          | none => "$NaN") := by
      unfold formatPrice
      rw [h2]
      rfl
    have hne : ∀ y : String, y.data.head? ≠ some '$' →
        y.data.head? ≠ some '-' → formatPrice v ≠ y := by
      intro y hy1 hy2
      rw [hval]
      cases hp : parseFloatJS v with
      | some d => exact formatUSD_ne _ _ hy1 hy2
      | none => exact ne_of_headDiff (by intro e; exact hy1 (by rw [← e]; rfl))
    refine ⟨⟨fun hcontra => ?_, fun hcontra => ?_⟩, ?_, ?_⟩
    · exact absurd hcontra (hne priceSentinel (by decide) (by decide))
    · rcases hcontra with h1 | h1
      · rw [hT] at h1; cases h1
      · exact absurd h1 hN
    · exact hne "0" (by decide) (by decide)
    · exact hne "NaN" (by decide) (by decide)

/-! Claim C5 (corrected). -/

/-- C5, counterexample: the claim says the numeric feature fields
default to 0 whenever the value fails to parse, so every field is a
number ≥ 0; but a present non-numeric value such as bedrooms "abc" is
truthy, reaches `parseInt` and yields NaN (`none`), not 0. -/
theorem normalize_parse_failure_cex :
    (normalizeProperty { bedrooms := JSValue.str "abc" }).features.bedrooms
        = none ∧
      (none : Option Int) ≠ some 0 := by
  refine ⟨by decide, by decide⟩

/-- C5, amended: each numeric feature field takes the first truthy value
among its key and its alternate key and coerces it with
`parseInt`/`parseFloat`; when both keys are falsy the literal 0 is
coerced, giving 0.  A present value that fails to parse yields NaN
(`none`), not 0, and negative numerals pass through, so the fields are
not guaranteed to be numbers ≥ 0.  In particular bedrooms "3"
normalizes to 3. -/
theorem normalize_numeric_amended (r : RawProperty) :
    ((truthy r.bedrooms = false ∧ truthy r.beds = false) →
        (normalizeProperty r).features.bedrooms = some 0) ∧
      (truthy r.bedrooms = true →
        (normalizeProperty r).features.bedrooms = parseIntJS r.bedrooms) ∧
      (truthy r.bedrooms = false → truthy r.beds = true →
        (normalizeProperty r).features.bedrooms = parseIntJS r.beds) ∧
      ((truthy r.bathrooms = false ∧ truthy r.baths = false) →
        (normalizeProperty r).features.bathrooms = some ⟨0, 0⟩) ∧
      (truthy r.bathrooms = true →
        (normalizeProperty r).features.bathrooms = parseFloatJS r.bathrooms) ∧
      ((truthy r.area = false ∧ truthy r.square_feet = false) →
        (normalizeProperty r).features.area = some 0) ∧
      (truthy r.area = true →
        (normalizeProperty r).features.area = parseIntJS r.area) ∧
      ((truthy r.year_built = false ∧ truthy r.built_year = false) →
        (normalizeProperty r).features.yearBuilt = some 0) ∧
      ((truthy r.garage_spaces = false ∧ truthy r.garage = false) →
        (normalizeProperty r).features.garage = some 0) ∧
      parseIntJS (JSValue.str "3") = some 3 := by
  refine ⟨?_, ?_, ?_, ?_, ?_, ?_, ?_, ?_, ?_, by decide⟩
  · intro h
    simp [normalizeProperty, jsOr, h.1, h.2]
    decide
  · intro h
    simp [normalizeProperty, jsOr, h]
  · intro h1 h2
    simp [normalizeProperty, jsOr, h1, h2]
  · intro h
    simp [normalizeProperty, jsOr, h.1, h.2]
    decide
  · intro h
    simp [normalizeProperty, jsOr, h]
  · intro h
    simp [normalizeProperty, jsOr, h.1, h.2]
    decide
  · intro h
    simp [normalizeProperty, jsOr, h]
  · intro h
    simp [normalizeProperty, jsOr, h.1, h.2]
    decide
  · intro h
    simp [normalizeProperty, jsOr, h.1, h.2]
    decide

/-- C5, witness: the end-to-end record of the spec — origin returns
`{id: 1, price: 0, bedrooms: "3"}` — normalizes to bedrooms 3 via the
amended theorem, and its price is the sentinel. -/
theorem normalize_numeric_amended_witness :
    (normalizeProperty scenarioRaw).features.bedrooms = some 3 ∧
      (normalizeProperty scenarioRaw).price = priceSentinel := by
  constructor
  · rw [(normalize_numeric_amended scenarioRaw).2.1 (by decide)]
    decide
  · decide

/-! Claim C2 (confirmed). -/

/-- C2: `fetchWithRetry` makes between 1 and 3 attempts; the delays
awaited are exactly `retryDelay * n` after each failed attempt `n` that
is not the last (so attempt `n ≥ 2` is preceded by a wait of
`1000 * (n - 1)` ms); when all three attempts fail the trace shows 3
attempts, delays `[1000, 2000]` summing to 3000 ms, and the error of the
last attempt is rethrown; a non-2xx status and a transport failure are
both failed attempts. -/
theorem fetchWithRetry_policy (oracle : Nat → AttemptOutcome) :
    1 ≤ (fetchWithRetryM oracle).attempts ∧
      (fetchWithRetryM oracle).attempts ≤ 3 ∧
      (fetchWithRetryM oracle).delays =
        (List.range ((fetchWithRetryM oracle).attempts - 1)).map
          (fun i => retryDelay * (i + 1)) ∧
      ((attemptFails (oracle 1) = true ∧ attemptFails (oracle 2) = true ∧
          attemptFails (oracle 3) = true) →
        (fetchWithRetryM oracle).result = .error (attemptErr (oracle 3)) ∧
          (fetchWithRetryM oracle).attempts = 3 ∧
          (fetchWithRetryM oracle).delays = [1000, 2000] ∧
          (fetchWithRetryM oracle).delays.sum = 3000) ∧
      (∀ s, attemptFails (.response s) = !respOk s) ∧
      (∀ e, attemptFails (.transportError e) = true) := by
  have hunf : fetchWithRetryM oracle = retryLoop oracle 1 3 := rfl
  cases h1 : attemptFails (oracle 1) <;> cases h2 : attemptFails (oracle 2) <;>
    cases h3 : attemptFails (oracle 3) <;>
      simp [hunf, retryLoop, h1, h2, h3, retryDelay, List.range_succ] <;>
        exact ⟨fun _ => rfl, fun _ => rfl⟩

/-- C2, witness: on an oracle whose attempts all fail at the transport
level, the policy theorem yields the 3-attempt, 1000 + 2000 ms trace
with the last error rethrown. -/
theorem fetchWithRetry_policy_witness :
    (fetchWithRetryM allFailOracle).result = .error .networkError ∧
      (fetchWithRetryM allFailOracle).attempts = 3 ∧
      (fetchWithRetryM allFailOracle).delays = [1000, 2000] ∧
      (fetchWithRetryM allFailOracle).delays.sum = 3000 := by
  have h := (fetchWithRetry_policy allFailOracle).2.2.2.1
    ⟨by decide, by decide, by decide⟩
  exact ⟨h.1, h.2.1, h.2.2.1, h.2.2.2⟩

/-! Claim C3 (confirmed). -/

/-- C3: on a cache miss whose network round fails, `fetchProperties`
with fallback permitted (any `useMockData` other than `false`, which is
the default) returns the fixed non-empty mock sample without storing it
(so an identical later call hits the network again); with `useMockData:
false` it throws the load failure; and `fetchProperty` always rethrows
the error, never falling back. -/
theorem fetch_fallback_asymmetry (c : List (String × List Listing))
    (cp : List (String × Listing)) (o : Options) (e : JsError) (id : JSValue)
    (hc : lookupA c (cacheKeyProps o) = none)
    (hcp : lookupA cp ("property_" ++ urlVal id) = none) :
    (optGet o "useMockData" ≠ .bool false →
        fetchPropertiesM c o (.failure e) = ⟨.ok mockProperties, c, true⟩ ∧
          mockProperties ≠ [] ∧
          (fetchPropertiesM (fetchPropertiesM c o (.failure e)).cache o
              (.failure e)).networkUsed = true) ∧
      (optGet o "useMockData" = .bool false →
        fetchPropertiesM c o (.failure e) = ⟨.error .loadFailure, c, true⟩) ∧
      fetchPropertyM cp id (.error e) = (.error e, cp, true) := by
  refine ⟨fun h => ?_, fun h => ?_, ?_⟩
  · have h1 : fetchPropertiesM c o (.failure e) = ⟨.ok mockProperties, c, true⟩ := by
      simp [fetchPropertiesM, hc, h]
    refine ⟨h1, by decide, ?_⟩
    rw [h1]
    simp [fetchPropertiesM, hc, h]
  · simp [fetchPropertiesM, hc, h]
  · simp [fetchPropertyM, hcp]

/-- C3, witness: concrete instances — empty caches, a transport error —
of the fallback asymmetry. -/
theorem fetch_fallback_asymmetry_witness :
    fetchPropertiesM [] [] (.failure .networkError) =
        ⟨.ok mockProperties, [], true⟩ ∧
      fetchPropertiesM [] [("useMockData", .bool false)]
          (.failure .networkError) = ⟨.error .loadFailure, [], true⟩ ∧
      fetchPropertyM [] (.num ⟨7, 0⟩) (.error .networkError) =
        (.error .networkError, [], true) := by
  refine ⟨((fetch_fallback_asymmetry [] [] [] .networkError (.num ⟨7, 0⟩)
      rfl rfl).1 (by decide)).1, ?_, ?_⟩
  · exact (fetch_fallback_asymmetry [] [] [("useMockData", .bool false)]
      .networkError (.num ⟨7, 0⟩) rfl rfl).2.1 (by decide)
  · exact (fetch_fallback_asymmetry [] [] [] .networkError (.num ⟨7, 0⟩)
      rfl rfl).2.2

/-! Claim C1 (code bug). -/

/-- C1: the claimed caching can never happen on the bulk path.  Line 43
of src/api.js maps the unbound method `this.normalizeProperty` over the
fetched array; inside it `this` is `undefined` (class bodies are strict
mode), so `this.formatPrice` throws a TypeError on the first element of
every non-empty successful response.  The catch block then returns the
mock data and `cache.set` is never reached: evaluated on a successful
network round delivering one raw record, the call returns the mock
sample, leaves the cache empty, and a second identical call hits the
network again instead of returning a cached reference. -/
theorem fetchProperties_unbound_normalize_bug :
    normalizeUnbound scenarioRaw = .error .typeError ∧
      fetchPropertiesM [] [] (.success [scenarioRaw]) =
        ⟨.ok mockProperties, [], true⟩ ∧
      (fetchPropertiesM (fetchPropertiesM [] [] (.success [scenarioRaw])).cache
          [] (.success [scenarioRaw])).networkUsed = true := by
  refine ⟨rfl, by decide, by decide⟩

/-! Navigation helper lemmas. -/

/-- Unfolding lemma for the JS remainder on a real index. -/
theorem jmodLen_some (i : Int) (n : Nat) :
    jmodLen (some i) n = if n = 0 then none else some (i.tmod (n : Int)) :=
  rfl

/-- startAutoAdvance touches only the timer fields. -/
theorem startAuto_fields {α : Type} (s : REState α) :
    (startAutoAdvanceRE s).currentIndex = s.currentIndex ∧
      (startAutoAdvanceRE s).properties = s.properties ∧
      (startAutoAdvanceRE s).isLoading = s.isLoading ∧
      (startAutoAdvanceRE s).isPlaying = s.isPlaying := by
  unfold startAutoAdvanceRE
  split <;> exact ⟨rfl, rfl, rfl, rfl⟩

/-- resetAutoAdvance touches only the timer fields. -/
theorem resetAuto_fields {α : Type} (s : REState α) :
    (resetAutoAdvanceRE s).currentIndex = s.currentIndex ∧
      (resetAutoAdvanceRE s).properties = s.properties := by
  unfold resetAutoAdvanceRE
  split
  · exact ⟨(startAuto_fields s).1, (startAuto_fields s).2.1⟩
  · exact ⟨rfl, rfl⟩

/-- goToSlide never changes the slide sequence. -/
theorem goToSlideRE_props {α : Type} (s : REState α) (idx : JNum) :
    (goToSlideRE s idx).properties = s.properties := by
  simp only [goToSlideRE, displaySlideRE]
  split
  · rfl
  · split <;> split
    · exact (resetAuto_fields _).2
    · rfl
    · exact (resetAuto_fields _).2
    · rfl

/-- goToSlide either leaves the index unchanged or writes `idx`, and a
write happens only when the bound checks and the re-entrancy guard all
pass. -/
theorem goToSlideRE_curr {α : Type} (s : REState α) (idx : JNum) :
    (goToSlideRE s idx).currentIndex = s.currentIndex ∨
      ((goToSlideRE s idx).currentIndex = idx ∧ jltZero idx = false ∧
        jgeLen idx s.properties.length = false ∧ s.isLoading = false) := by
  simp only [goToSlideRE, displaySlideRE]
  by_cases h1 : (jeq idx s.currentIndex || s.isLoading) = true
  · rw [if_pos h1]
    exact Or.inl rfl
  · rw [if_neg h1]
    have h1f : (jeq idx s.currentIndex || s.isLoading) = false := by
      simpa using h1
    have hload : s.isLoading = false := (Bool.or_eq_false_iff.mp h1f).2
    by_cases h2 :
        (jltZero idx || jgeLen idx s.properties.length || s.isLoading) = true
    · rw [if_pos h2]
      split
      · exact Or.inl (resetAuto_fields _).1
      · exact Or.inl rfl
    · rw [if_neg h2]
      have h2f :
          (jltZero idx || jgeLen idx s.properties.length || s.isLoading)
            = false := by
        simpa using h2
      have h3 := Bool.or_eq_false_iff.mp h2f
      have h4 := Bool.or_eq_false_iff.mp h3.1
      split
      · exact Or.inr ⟨(resetAuto_fields _).1, h4.1, h4.2, hload⟩
      · exact Or.inr ⟨rfl, h4.1, h4.2, hload⟩

/-- A goToSlide call with a real in-range integer index while no
transition is in progress ends on that index (either it was already
current, or the guarded display accepts it). -/
theorem goToSlideRE_accept {α : Type} (s : REState α) (j : Int)
    (hload : s.isLoading = false) (h0 : 0 ≤ j)
    (hlt : j < s.properties.length) :
    (goToSlideRE s (some j)).currentIndex = some j := by
  simp only [goToSlideRE, displaySlideRE]
  by_cases he : (jeq (some j) s.currentIndex || s.isLoading) = true
  · rw [if_pos he]
    rcases Bool.or_eq_true_iff.mp he with h | h
    · cases hci : s.currentIndex with
      | none => rw [hci] at h; cases h
      | some c =>
        rw [hci] at h
        have hjc : j = c := by simpa [jeq] using h
        rw [hjc]
    · rw [h] at hload; cases hload
  · rw [if_neg he]
    have hg : (jltZero (some j) || jgeLen (some j) s.properties.length
        || s.isLoading) = false := by
      simp [jltZero, jgeLen, hload]
      omega
    simp only [hg, Bool.false_eq_true, if_false]
    split
    · rw [(resetAuto_fields _).1]
    · rfl

/-- The valid-index invariant survives any goToSlide with a real integer
argument. -/
theorem validRE_goto {α : Type} (s : REState α) (j : Int) (h : validRE s) :
    validRE (goToSlideRE s (some j)) := by
  have hp := goToSlideRE_props s (some j)
  rcases goToSlideRE_curr s (some j) with hc | ⟨hc, h1, h2, _⟩
  · obtain ⟨hlen, i, hci, hi0, hilt⟩ := h
    exact ⟨by rw [hp]; exact hlen, i, by rw [hc]; exact hci, hi0,
      by rw [hp]; exact hilt⟩
  · obtain ⟨hlen, _⟩ := h
    refine ⟨by rw [hp]; exact hlen, j, hc, ?_, ?_⟩
    · have hj : ¬ (j < 0) := by simpa [jltZero] using h1
      omega
    · have hj : ¬ ((s.properties.length : Int) ≤ j) := by
        simpa [jgeLen] using h2
      rw [hp]
      omega

/-- A goToSlide call while a transition is in progress is a complete
no-op. -/
theorem goToSlideRE_loading {α : Type} (s : REState α) (idx : JNum)
    (hload : s.isLoading = true) : goToSlideRE s idx = s := by
  simp [goToSlideRE, hload]

/-- A goToSlide call on the NaN index (no transition in progress) writes
NaN into the current index: NaN passes both bound checks. -/
theorem goToSlideRE_nan {α : Type} (s : REState α)
    (hload : s.isLoading = false) : (goToSlideRE s none).currentIndex = none := by
  simp only [goToSlideRE, displaySlideRE]
  rw [if_neg (by simp [jeq, hload])]
  have hg : (jltZero none || jgeLen none s.properties.length || s.isLoading)
      = false := by
    simp [jltZero, jgeLen, hload]
  simp only [hg, Bool.false_eq_true, if_false]
  split
  · rw [(resetAuto_fields _).1]
  · rfl

/-- Every navigation operation preserves the valid-index invariant of
the RealEstateSlideshow controller. -/
theorem stepRE_valid {α : Type} (s : REState α) (op : NavOp)
    (h : validRE s) : validRE (stepRE s op) := by
  obtain ⟨hlen, i, hci, hi0, hilt⟩ := h
  cases op with
  | goto j => exact validRE_goto s j ⟨hlen, i, hci, hi0, hilt⟩
  | next =>
    have hne : s.properties.length ≠ 0 := by omega
    have hidx : jmodLen (jadd1 s.currentIndex) s.properties.length
        = some ((i + 1).tmod (s.properties.length : Int)) := by
      rw [hci]
      simp [jadd1, jmodLen, hne]
    show validRE (nextSlideRE s)
    rw [nextSlideRE, hidx]
    exact validRE_goto s _ ⟨hlen, i, hci, hi0, hilt⟩
  | prev =>
    show validRE (prevSlideRE s)
    rw [prevSlideRE]
    by_cases h0 : jeqInt s.currentIndex 0 = true
    · rw [if_pos h0]
      exact validRE_goto s _ ⟨hlen, i, hci, hi0, hilt⟩
    · rw [if_neg h0, hci]
      exact validRE_goto s (i - 1) ⟨hlen, i, hci, hi0, hilt⟩

/-! Claim C6 (corrected). -/

/-- C6, counterexample: in the PropertySlideshow variant
(src/unnamed/part_001) `goToSlide` stores the requested index without
any bounds check, so `goto 5` on a 3-slide sequence leaves
`currentIndex = 5`, which is not a valid position of the sequence. -/
theorem goToSlide_unguarded_cex :
    (goToSlidePS (⟨[(), (), ()], some 0⟩ : PSState Unit) (some 5)).currentIndex
        = some 5 ∧
      (goToSlidePS (⟨[(), (), ()], some 0⟩ : PSState Unit)
          (some 5)).properties.length = 3 ∧
      ¬ ((5 : Int) < 3) := by
  refine ⟨by decide, by decide, by decide⟩

/-- C6, amended: in the RealEstateSlideshow controller (src/slideshow.js)
the claim holds in full — starting from a valid state, any sequence of
next/previous/goto operations keeps `currentIndex` an integer in
`[0, length)`, and next from the last index wraps to 0 while previous
from 0 wraps to the last index.  In the PropertySlideshow variant
(src/unnamed/part_001) next/previous wrap identically, but `goToSlide`
is unguarded, so a goto with an out-of-range index breaks the bound
invariant (see the counterexample). -/
theorem nav_index_invariant_amended :
    (∀ (α : Type) (s : REState α) (ops : List NavOp), validRE s →
        validRE (ops.foldl stepRE s)) ∧
      (∀ (α : Type) (s : REState α), validRE s → s.isLoading = false →
        s.currentIndex = some ((s.properties.length : Int) - 1) →
        (nextSlideRE s).currentIndex = some 0) ∧
      (∀ (α : Type) (s : REState α), validRE s → s.isLoading = false →
        s.currentIndex = some 0 →
        (prevSlideRE s).currentIndex = some ((s.properties.length : Int) - 1)) ∧
      (∀ (α : Type) (s : PSState α), 0 < s.properties.length →
        s.currentIndex = some ((s.properties.length : Int) - 1) →
        (nextSlidePS s).currentIndex = some 0) ∧
      (∀ (α : Type) (s : PSState α), 0 < s.properties.length →
        s.currentIndex = some 0 →
        (prevSlidePS s).currentIndex = some ((s.properties.length : Int) - 1)) := by
  refine ⟨?_, ?_, ?_, ?_, ?_⟩
  · intro α s ops h
    induction ops generalizing s with
    | nil => exact h
    | cons op ops ih => exact ih _ (stepRE_valid s op h)
  · intro α s h hload hci
    obtain ⟨hlen, _⟩ := h
    have hne : s.properties.length ≠ 0 := by omega
    have hidx : jmodLen (jadd1 s.currentIndex) s.properties.length
        = some (0 : Int) := by
      rw [hci]
      show jmodLen (some ((s.properties.length : Int) - 1 + 1))
        s.properties.length = some 0
      rw [jmodLen_some, if_neg hne]
      congr 1
      have h1 : (s.properties.length : Int) - 1 + 1
          = (s.properties.length : Int) := by ring
      rw [h1, Int.tmod_eq_emod (by omega) (by omega), Int.emod_self]
    rw [nextSlideRE, hidx]
    exact goToSlideRE_accept s 0 hload le_rfl (by omega)
  · intro α s h hload hci
    obtain ⟨hlen, _⟩ := h
    have h0 : jeqInt s.currentIndex 0 = true := by simp [hci, jeqInt]
    rw [prevSlideRE, if_pos h0]
    exact goToSlideRE_accept s _ hload (by omega) (by omega)
  · intro α s hlen hci
    have hne : s.properties.length ≠ 0 := by omega
    have hrw : (nextSlidePS s).currentIndex
        = jmodLen (jadd1 s.currentIndex) s.properties.length := rfl
    rw [hrw, hci]
    show jmodLen (some ((s.properties.length : Int) - 1 + 1))
      s.properties.length = some 0
    rw [jmodLen_some, if_neg hne]
    congr 1
    have h1 : (s.properties.length : Int) - 1 + 1
        = (s.properties.length : Int) := by ring
    rw [h1, Int.tmod_eq_emod (by omega) (by omega), Int.emod_self]
  · intro α s hlen hci
    have hne : s.properties.length ≠ 0 := by omega
    have hrw : (prevSlidePS s).currentIndex
        = jmodLen (jaddLen (jsub1 s.currentIndex) s.properties.length)
            s.properties.length := rfl
    rw [hrw, hci]
    show jmodLen (some ((0 : Int) - 1 + (s.properties.length : Int)))
      s.properties.length = some ((s.properties.length : Int) - 1)
    rw [jmodLen_some, if_neg hne]
    congr 1
    have h1 : (0 : Int) - 1 + (s.properties.length : Int)
        = (s.properties.length : Int) - 1 := by ring
    rw [h1, Int.tmod_eq_emod (by omega) (by omega),
      Int.emod_eq_of_lt (by omega) (by omega)]

/-- C6, witness: a concrete 3-slide RealEstateSlideshow state stays
valid under a burst of operations, wraps from the last slide to 0, and a
concrete PropertySlideshow wraps backward from 0 to the last slide. -/
theorem nav_index_invariant_amended_witness :
    validRE ([NavOp.next, NavOp.prev, NavOp.goto 2, NavOp.next].foldl stepRE
        (⟨[(), (), ()], some 0, false, true, false, 0⟩ : REState Unit)) ∧
      (nextSlideRE (⟨[(), (), ()], some 2, false, true, false, 0⟩ :
          REState Unit)).currentIndex = some 0 ∧
      (prevSlidePS (⟨[(), (), ()], some 0⟩ : PSState Unit)).currentIndex
        = some 2 := by
  refine ⟨?_, ?_, ?_⟩
  · exact nav_index_invariant_amended.1 Unit _ _ ⟨by decide, 0, rfl, by decide, by decide⟩
  · exact nav_index_invariant_amended.2.1 Unit _
      ⟨by decide, 2, rfl, by decide, by decide⟩ rfl (by decide)
  · have h := nav_index_invariant_amended.2.2.2.2 Unit
      (⟨[(), (), ()], some 0⟩ : PSState Unit) (by decide) (by decide)
    simpa using h

/-! Claim C7 (corrected). -/

/-- C7, counterexample: with an empty slide sequence (and no transition
in progress) `nextSlide` is not a no-op: `(0 + 1) % 0` is NaN, NaN
passes the `index < 0 || index >= length` guard, and `currentIndex`
becomes NaN (the auto-advance timer is also reset). -/
theorem next_empty_not_noop_cex :
    (nextSlideRE (⟨[], some 0, false, true, false, 0⟩ :
        REState Unit)).currentIndex = none ∧
      nextSlideRE (⟨[], some 0, false, true, false, 0⟩ : REState Unit)
        ≠ (⟨[], some 0, false, true, false, 0⟩ : REState Unit) := by
  refine ⟨by decide, by decide⟩

/-- C7, amended: while a transition is in progress (`isLoading`),
next/previous/goto are complete no-ops, and an accepted next advances by
exactly one position (mod length), so a burst of rapid calls never skips
slides.  With an empty sequence, previous() and goto() leave
`currentIndex` unchanged, but next() writes NaN into `currentIndex`
(`(i + 1) % 0` is NaN and NaN passes the bounds guard), so the
empty-sequence half of the claim fails for next(). -/
theorem nav_guard_amended :
    (∀ (α : Type) (s : REState α), s.isLoading = true →
        nextSlideRE s = s ∧ prevSlideRE s = s ∧
          ∀ i : Int, goToSlideRE s (some i) = s) ∧
      (∀ (α : Type) (s : REState α), s.properties.length = 0 →
        (prevSlideRE s).currentIndex = s.currentIndex ∧
          (∀ i : Int, (goToSlideRE s (some i)).currentIndex = s.currentIndex) ∧
          (∀ c : Int, s.currentIndex = some c → s.isLoading = false →
            (nextSlideRE s).currentIndex = none)) ∧
      (∀ (α : Type) (s : REState α) (i : Int), validRE s →
        s.isLoading = false → s.currentIndex = some i →
        (nextSlideRE s).currentIndex =
          some ((i + 1).tmod (s.properties.length : Int))) := by
  refine ⟨?_, ?_, ?_⟩
  · intro α s hload
    exact ⟨goToSlideRE_loading s _ hload, goToSlideRE_loading s _ hload,
      fun i => goToSlideRE_loading s _ hload⟩
  · intro α s hlen
    refine ⟨?_, ?_, ?_⟩
    · rw [prevSlideRE]
      by_cases h0 : jeqInt s.currentIndex 0 = true
      · rw [if_pos h0]
        rcases goToSlideRE_curr s (some ((s.properties.length : Int) - 1))
          with hc | ⟨_, h1, _, _⟩
        · exact hc
        · rw [hlen] at h1
          simp [jltZero] at h1
      · rw [if_neg h0]
        cases hci : s.currentIndex with
        | none =>
          rcases goToSlideRE_curr s (jsub1 none) with hc | ⟨hc, _, _, _⟩
          · rw [hci] at hc
            exact hc
          · simpa [jsub1] using hc
        | some c =>
          rcases goToSlideRE_curr s (jsub1 (some c)) with hc | ⟨_, h1, h2, _⟩
          · rw [hci] at hc
            exact hc
          · exfalso
            rw [hlen] at h2
            simp [jsub1, jltZero] at h1
            simp [jsub1, jgeLen] at h2
            omega
    · intro i
      rcases goToSlideRE_curr s (some i) with hc | ⟨_, h1, h2, _⟩
      · exact hc
      · rw [hlen] at h2
        simp [jltZero] at h1
        simp [jgeLen] at h2
        omega
    · intro c hci hload
      have hidx : jmodLen (jadd1 s.currentIndex) s.properties.length
          = none := by
        rw [hci, hlen]
        simp [jadd1, jmodLen]
      rw [nextSlideRE, hidx]
      exact goToSlideRE_nan s hload
  · intro α s i h hload hci
    obtain ⟨hlen, j, hcj, hj0, hjlt⟩ := h
    rw [hci] at hcj
    have hij : i = j := Option.some.inj hcj
    have hne : s.properties.length ≠ 0 := by omega
    have hidx : jmodLen (jadd1 s.currentIndex) s.properties.length
        = some ((i + 1).tmod (s.properties.length : Int)) := by
      rw [hci]
      simp [jadd1, jmodLen, hne]
    rw [nextSlideRE, hidx]
    have hte : (i + 1).tmod (s.properties.length : Int)
        = (i + 1) % (s.properties.length : Int) :=
      Int.tmod_eq_emod (by omega) (by omega)
    refine goToSlideRE_accept s _ hload ?_ ?_
    · rw [hte]
      exact Int.emod_nonneg _ (by omega)
    · rw [hte]
      exact Int.emod_lt_of_pos _ (by omega)

/-- C7, witness: a concrete mid-transition state is untouched by next;
on a concrete empty-sequence state previous keeps the index, next writes
NaN; and an accepted next on a 3-slide state advances exactly one. -/
theorem nav_guard_amended_witness :
    nextSlideRE (⟨[()], some 0, true, true, false, 0⟩ : REState Unit)
        = (⟨[()], some 0, true, true, false, 0⟩ : REState Unit) ∧
      (prevSlideRE (⟨[], some 0, false, true, false, 0⟩ :
          REState Unit)).currentIndex = some 0 ∧
      (nextSlideRE (⟨[], some 0, false, true, false, 0⟩ :
          REState Unit)).currentIndex = none ∧
      (nextSlideRE (⟨[(), (), ()], some 1, false, true, false, 0⟩ :
          REState Unit)).currentIndex = some 2 := by
  refine ⟨(nav_guard_amended.1 Unit
    (⟨[()], some 0, true, true, false, 0⟩ : REState Unit) rfl).1, ?_, ?_, ?_⟩
  · exact (nav_guard_amended.2.1 Unit
      (⟨[], some 0, false, true, false, 0⟩ : REState Unit) rfl).1
  · exact (nav_guard_amended.2.1 Unit
      (⟨[], some 0, false, true, false, 0⟩ : REState Unit) rfl).2.2 0 rfl rfl
  · have h := nav_guard_amended.2.2 Unit
      (⟨[(), (), ()], some 1, false, true, false, 0⟩ : REState Unit) 1
      ⟨by decide, 1, rfl, by decide, by decide⟩ rfl rfl
    rw [h]
    decide

/-- displaySlide called with the index the state already carries leaves
that index in place whether or not the guard accepts. -/
theorem displaySlideRE_curr_self {α : Type} (x : REState α) (idx : JNum)
    (h : x.currentIndex = idx) : (displaySlideRE x idx).currentIndex = idx := by
  unfold displaySlideRE
  split
  · exact h
  · rfl

/-- play always ends with the play flag and a scheduled timer, keeping
the current index. -/
theorem playRE_fields {α : Type} (x : REState α) :
    (playRE x).currentIndex = x.currentIndex ∧ (playRE x).isPlaying = true ∧
      (playRE x).timerOn = true ∧ (playRE x).properties = x.properties := by
  simp [playRE, startAutoAdvanceRE]

/-! Claim C8 (corrected). -/

/-- C8, counterexample: `refresh()` calls `pause()` and then,
unconditionally, `play()` — it does not remember the prior play state.
Refreshing a paused controller (network down, so the non-empty mock data
is loaded) therefore ends playing, where the claim requires it to remain
paused. -/
theorem refresh_resume_cex :
    ((⟨[], some 0, false, false, false, 0⟩ : REState Listing)).isPlaying
        = false ∧
      (refreshRE (⟨[], some 0, false, false, false, 0⟩ : REState Listing)
          (.failure .networkError)).2.2 = none ∧
      (refreshRE (⟨[], some 0, false, false, false, 0⟩ : REState Listing)
          (.failure .networkError)).1.isPlaying = true := by
  refine ⟨by decide, by decide, by decide⟩

/-- C8, amended: `refresh()` pauses, clears the cache, re-fetches
(through a fresh empty cache) and, on success, resets `currentIndex` to
0 and always resumes playback — regardless of whether the controller was
playing before the call.  A failed refresh leaves the controller paused
with its index unchanged, but not its slides: a fetch error keeps the
previous slides, while an empty result (the one failure reachable from
`fetchProperties()` with no options, whose fallback mock data is
non-empty) overwrites them with the empty array before the throw,
because line 477 assigns `this.properties` before the length check at
line 479. -/
theorem refresh_always_resumes_amended (s : REState Listing)
    (net : NetResult) :
    ((refreshRE s net).2.2 = none →
        (refreshRE s net).1.currentIndex = some 0 ∧
          (refreshRE s net).1.isPlaying = true ∧
          (refreshRE s net).1.timerOn = true) ∧
      (∀ e, (refreshRE s net).2.2 = some e →
        (refreshRE s net).1.isPlaying = false ∧
          (refreshRE s net).1.timerOn = false ∧
          (refreshRE s net).1.currentIndex = s.currentIndex) ∧
      (∀ e, (fetchPropertiesM [] [] net).result = .error e →
        (refreshRE s net).1.properties = s.properties) ∧
      ((fetchPropertiesM [] [] net).result = .ok [] →
        (refreshRE s net).2.2 = some .noProperties ∧
          (refreshRE s net).1.properties = []) ∧
      (refreshRE s net).2.1 = (fetchPropertiesM [] [] net).cache := by
  cases hres : (fetchPropertiesM [] [] net).result with
  | error e =>
    simp [refreshRE, hres, pauseRE]
  | ok props =>
    by_cases hl : props.length = 0
    · have hnil : props = [] := List.length_eq_zero.mp hl
      subst hnil
      simp [refreshRE, hres, pauseRE]
    · have hrw : refreshRE s net =
          (playRE (displaySlideRE
              { pauseRE s with properties := props, currentIndex := some 0 }
              (some 0)),
            (fetchPropertiesM [] [] net).cache, none) := by
        simp [refreshRE, hres, hl]
      rw [hrw]
      refine ⟨fun _ => ?_, fun e he => absurd he (by simp),
        fun e he => absurd he (by simp),
        fun h0 => absurd (by rw [Except.ok.inj h0]; rfl) hl, rfl⟩
      refine ⟨?_, (playRE_fields _).2.1, (playRE_fields _).2.2.1⟩
      rw [(playRE_fields _).1]
      exact displaySlideRE_curr_self _ _ rfl

/-- C8, witness: refreshing a concrete paused controller with the
network down succeeds on mock data and ends playing at slide 0 with the
timer scheduled; refreshing a playing controller holding the mock slides
while the origin answers 200 with an empty array fails, leaving the
controller with the empty fetched array in place of its previous
slides. -/
theorem refresh_always_resumes_amended_witness :
    ((refreshRE (⟨[], some 7, false, false, false, 0⟩ : REState Listing)
        (.failure .networkError)).1.currentIndex = some 0 ∧
      (refreshRE (⟨[], some 7, false, false, false, 0⟩ : REState Listing)
          (.failure .networkError)).1.isPlaying = true ∧
      (refreshRE (⟨[], some 7, false, false, false, 0⟩ : REState Listing)
          (.failure .networkError)).1.timerOn = true) ∧
    ((refreshRE (⟨mockProperties, some 2, false, true, true, 5⟩ :
          REState Listing) (.success [])).2.2 = some .noProperties ∧
      (refreshRE (⟨mockProperties, some 2, false, true, true, 5⟩ :
          REState Listing) (.success [])).1.properties = []) := by
  exact ⟨(refresh_always_resumes_amended _ _).1 (by decide),
    (refresh_always_resumes_amended _ _).2.2.2.1 (by decide)⟩

/-! Timing helper lemmas. -/

/-- updateDisplay only ever touches the pending one-shot list. -/
theorem updateDisplayT_fields (st : TState) :
    (updateDisplayT st).props = st.props ∧
      (updateDisplayT st).currentIndex = st.currentIndex ∧
      (updateDisplayT st).isPlaying = st.isPlaying ∧
      (updateDisplayT st).now = st.now ∧
      (updateDisplayT st).intervalNext = st.intervalNext := by
  unfold updateDisplayT
  split
  · split <;> exact ⟨rfl, rfl, rfl, rfl, rfl⟩
  · exact ⟨rfl, rfl, rfl, rfl, rfl⟩

/-- startSlideshow only ever touches the interval. -/
theorem startSlideshowT_fields (st : TState) :
    (startSlideshowT st).props = st.props ∧
      (startSlideshowT st).currentIndex = st.currentIndex ∧
      (startSlideshowT st).isPlaying = st.isPlaying ∧
      (startSlideshowT st).now = st.now ∧
      (startSlideshowT st).oneShots = st.oneShots := by
  cases hp : st.isPlaying <;> simp [startSlideshowT, hp]

/-- While playing, startSlideshow schedules the next tick one regular
interval from now. -/
theorem startSlideshowT_interval (st : TState) (hp : st.isPlaying = true) :
    (startSlideshowT st).intervalNext = some (st.now + slideIntervalMs) := by
  unfold startSlideshowT
  simp [hp]

/-- Field view of a goToSlide in the timed model. -/
theorem goToSlideT_fields (st : TState) (j : Nat) :
    (goToSlideT st j).props = st.props ∧
      (goToSlideT st j).currentIndex = j ∧
      (goToSlideT st j).isPlaying = st.isPlaying ∧
      (goToSlideT st j).now = st.now := by
  unfold goToSlideT
  refine ⟨?_, ?_, ?_, ?_⟩
  · rw [(startSlideshowT_fields _).1, (updateDisplayT_fields _).1]
  · rw [(startSlideshowT_fields _).2.1, (updateDisplayT_fields _).2.1]
  · rw [(startSlideshowT_fields _).2.2.1, (updateDisplayT_fields _).2.2.1]
  · rw [(startSlideshowT_fields _).2.2.2.1, (updateDisplayT_fields _).2.2.2.1]

/-- While playing, a goToSlide leaves the interval scheduled one regular
interval from now. -/
theorem goToSlideT_interval (st : TState) (j : Nat)
    (hp : st.isPlaying = true) :
    (goToSlideT st j).intervalNext = some (st.now + slideIntervalMs) := by
  unfold goToSlideT
  rw [startSlideshowT_interval _
    (by rw [(updateDisplayT_fields _).2.2.1]; exact hp)]
  rw [(updateDisplayT_fields _).2.2.2.1]

/-! Claim C9 (corrected). -/

/-- C9, counterexample: the one-shot scheduled for a message slide does
not replace the regular interval — both timers are pending.  For a
message with displayDurationMs 10000 (> 8000) the regular interval fires
first: the slide auto-advances at 8000 ms, not at the configured
duration, and the stale one-shot is still pending afterwards. -/
theorem message_duration_cex :
    (goToSlideT (⟨[⟨true, 10000⟩, ⟨false, 0⟩], 1, true, 0, none, []⟩ : TState)
        0).oneShots = [10000] ∧
      (goToSlideT (⟨[⟨true, 10000⟩, ⟨false, 0⟩], 1, true, 0, none, []⟩ :
          TState) 0).intervalNext = some 8000 ∧
      (fireNext (goToSlideT
          (⟨[⟨true, 10000⟩, ⟨false, 0⟩], 1, true, 0, none, []⟩ : TState)
          0)).now = 8000 ∧
      (fireNext (goToSlideT
          (⟨[⟨true, 10000⟩, ⟨false, 0⟩], 1, true, 0, none, []⟩ : TState)
          0)).currentIndex = 1 ∧
      (fireNext (goToSlideT
          (⟨[⟨true, 10000⟩, ⟨false, 0⟩], 1, true, 0, none, []⟩ : TState)
          0)).oneShots = [10000] := by
  refine ⟨by decide, by decide, by decide, by decide, by decide⟩

/-- C9, amended: when the controller navigates, while playing, to a
Message slide whose displayDurationMs is positive and below the regular
8000 ms interval (and no stale one-shot is pending), exactly one
one-shot is scheduled at that duration alongside the re-armed interval;
the next timer event is the one-shot — it advances the slide exactly one
position at the message duration, before the interval tick — and the
following slide gets a fresh regular interval of 8000 ms.  For durations
of 8000 ms or more the regular interval fires first instead (see the
counterexample). -/
theorem message_duration_amended (st : TState) (i : Nat) (m : MSlide)
    (hm : st.props[i]? = some m) (hmsg : m.isMessage = true)
    (hd0 : 0 < m.displayTime) (hd : m.displayTime < slideIntervalMs)
    (hp : st.isPlaying = true) (hsh : st.oneShots = []) :
    (goToSlideT st i).oneShots = [st.now + m.displayTime] ∧
      (goToSlideT st i).intervalNext = some (st.now + slideIntervalMs) ∧
      (fireNext (goToSlideT st i)).now = st.now + m.displayTime ∧
      (fireNext (goToSlideT st i)).currentIndex = (i + 1) % st.props.length ∧
      (fireNext (goToSlideT st i)).intervalNext
        = some (st.now + m.displayTime + slideIntervalMs) := by
  have hne : m.displayTime ≠ 0 := by omega
  have hsh1 : (goToSlideT st i).oneShots = [st.now + m.displayTime] := by
    have hu : (updateDisplayT { st with currentIndex := i }).oneShots
        = [st.now + m.displayTime] := by
      unfold updateDisplayT
      simp [hm, hmsg, hne, hp, hsh]
    rw [goToSlideT, (startSlideshowT_fields _).2.2.2.2, hu]
  have hint1 : (goToSlideT st i).intervalNext
      = some (st.now + slideIntervalMs) := by
    rw [goToSlideT_interval st i hp]
  have hfire : fireNext (goToSlideT st i)
      = fireOne (goToSlideT st i) (st.now + m.displayTime) := by
    unfold fireNext
    rw [hsh1, hint1]
    simp only [List.min?, List.foldl]
    rw [if_pos (by omega)]
  have hplay1 : (goToSlideT st i).isPlaying = true := by
    rw [(goToSlideT_fields st i).2.2.1]
    exact hp
  have hfo : fireOne (goToSlideT st i) (st.now + m.displayTime)
      = nextSlideT
          { goToSlideT st i with now := st.now + m.displayTime, oneShots := [] } := by
    unfold fireOne
    rw [hsh1]
    simp [hplay1, List.erase_cons_head]
  have hidx2 :
      ({ goToSlideT st i with now := st.now + m.displayTime, oneShots := [] } : TState).currentIndex
        = i :=
    (goToSlideT_fields st i).2.1
  have hprops2 :
      ({ goToSlideT st i with now := st.now + m.displayTime, oneShots := [] } : TState).props
        = st.props :=
    (goToSlideT_fields st i).1
  have hplay2 :
      ({ goToSlideT st i with now := st.now + m.displayTime, oneShots := [] } : TState).isPlaying
        = true := hplay1
  refine ⟨hsh1, hint1, ?_, ?_, ?_⟩
  · rw [hfire, hfo, nextSlideT, (goToSlideT_fields _ _).2.2.2]
  · rw [hfire, hfo, nextSlideT, (goToSlideT_fields _ _).2.1, hidx2, hprops2]
  · rw [hfire, hfo, nextSlideT, goToSlideT_interval _ _ hplay2]

/-- C9, witness: the end-to-end scenario of the spec — a message with
displayDurationMs 4000 followed by a listing slide — auto-advances at
4000 ms (not 8000 ms) and the interval of the following slide is re-armed for
a full 8000 ms (next tick at 12000 ms). -/
theorem message_duration_amended_witness :
    (fireNext (goToSlideT
        (⟨[⟨true, 4000⟩, ⟨false, 0⟩], 1, true, 0, none, []⟩ : TState)
        0)).now = 4000 ∧
      (fireNext (goToSlideT
          (⟨[⟨true, 4000⟩, ⟨false, 0⟩], 1, true, 0, none, []⟩ : TState)
          0)).currentIndex = 1 ∧
      (fireNext (goToSlideT
          (⟨[⟨true, 4000⟩, ⟨false, 0⟩], 1, true, 0, none, []⟩ : TState)
          0)).intervalNext = some 12000 := by
  have h := message_duration_amended
    (⟨[⟨true, 4000⟩, ⟨false, 0⟩], 1, true, 0, none, []⟩ : TState) 0
    ⟨true, 4000⟩ rfl rfl (by decide) (by decide) rfl rfl
  refine ⟨?_, ?_, ?_⟩
  · rw [h.2.2.1]
    decide
  · rw [h.2.2.2.1]
    decide
  · rw [h.2.2.2.2]
    decide

/-! Serialization helper lemmas (claim C10). -/

/-- Lookups ignore the value stored under a different key. -/
theorem find?_diff {β : Type} (A B : List (String × β)) (k0 k : String)
    (x y : β) (hk : (k0 == k) = false) :
    (A ++ (k0, x) :: B).find? (fun p => p.1 == k)
      = (A ++ (k0, y) :: B).find? (fun p => p.1 == k) := by
  induction A with
  | nil => simp [List.find?, hk]
  | cons p ps ih =>
    simp only [List.cons_append, List.find?, List.append_eq]
    rw [ih]

/-- JS property access sees through a value difference under another
key. -/
theorem optGet_diff (A B : Options) (k0 k : String) (x y : JSValue)
    (hk : (k0 == k) = false) :
    optGet (A ++ (k0, x) :: B) k = optGet (A ++ (k0, y) :: B) k := by
  unfold optGet lookupA
  rw [find?_diff A B k0 k x y hk]

/-- Replacing the value bound to `k` leaves lookups of `k2` unchanged. -/
theorem lookupA_mapswap {β : Type} (l : List (String × β)) (k k2 : String)
    (v : β) (h : k2 ≠ k) :
    lookupA (l.map (fun p => if p.1 == k then (k, v) else p)) k2
      = lookupA l k2 := by
  unfold lookupA
  rw [List.find?_map]
  have hpred : ((fun p : String × β => p.1 == k2)
      ∘ (fun p => if p.1 == k then (k, v) else p))
      = (fun p : String × β => p.1 == k2) := by
    funext p
    by_cases hpk : p.1 = k
    · simp [hpk]
    · simp [hpk]
  rw [hpred]
  cases hf : l.find? (fun p : String × β => p.1 == k2) with
  | none => rfl
  | some q =>
    have hq := List.find?_some hf
    have hq2 : q.1 = k2 := by simpa using hq
    have hne2 : ¬ (q.1 = k) := by
      rw [hq2]
      exact fun h2 => h h2
    simp [hne2]

/-- Appending a binding of a different key leaves searches for `k2`
unchanged. -/
theorem find?_append_single {β : Type} (l : List (String × β))
    (k k2 : String) (v : β) (h : k2 ≠ k) :
    (l ++ [(k, v)]).find? (fun p => p.1 == k2)
      = l.find? (fun p => p.1 == k2) := by
  induction l with
  | nil =>
    simp [List.find?, beq_eq_false_iff_ne.mpr (fun h2 => h h2.symm)]
  | cons p ps ih =>
    simp only [List.cons_append, List.find?, List.append_eq]
    rw [ih]

/-- Appending a binding of a different key leaves lookups of `k2`
unchanged. -/
theorem lookupA_append_single {β : Type} (l : List (String × β))
    (k k2 : String) (v : β) (h : k2 ≠ k) :
    lookupA (l ++ [(k, v)]) k2 = lookupA l k2 := by
  unfold lookupA
  rw [find?_append_single l k k2 v h]

/-- Unchanged-key lookups also ignore an upsert under another key. -/
theorem lookupA_upsert_ne {β : Type} (l : List (String × β)) (k k2 : String)
    (v : β) (h : k2 ≠ k) : lookupA (upsert l k v) k2 = lookupA l k2 := by
  unfold upsert
  split
  · exact lookupA_mapswap l k k2 v h
  · exact lookupA_append_single l k k2 v h

/-- A call of the bulk fetch never installs a cache entry under any key
other than its own cache key. -/
theorem fetchProps_cache_lookup (c : List (String × List Listing))
    (o : Options) (net : NetResult) (k2 : String)
    (hne : k2 ≠ cacheKeyProps o) :
    lookupA (fetchPropertiesM c o net).cache k2 = lookupA c k2 := by
  unfold fetchPropertiesM
  cases hl : lookupA c (cacheKeyProps o) with
  | some l => simp only [hl]
  | none =>
    simp only [hl]
    cases net with
    | success raws =>
      cases hmm : raws.mapM normalizeUnbound with
      | ok norm =>
        simp only [hmm]
        exact lookupA_upsert_ne _ _ _ _ hne
      | error e =>
        simp only [hmm]
        by_cases hm : optGet o "useMockData" = JSValue.bool false
        · simp only [if_pos hm]
        · simp only [if_neg hm]
    | failure e =>
      by_cases hm : optGet o "useMockData" = JSValue.bool false
      · simp only [if_pos hm]
      · simp only [if_neg hm]

/-- A cache miss forces a network round. -/
theorem fetchProps_miss_network (c : List (String × List Listing))
    (o : Options) (net : NetResult)
    (h : lookupA c (cacheKeyProps o) = none) :
    (fetchPropertiesM c o net).networkUsed = true := by
  unfold fetchPropertiesM
  simp only [h]
  cases net with
  | success raws =>
    cases hmm : raws.mapM normalizeUnbound with
    | ok norm => simp only [hmm]
    | error e =>
      simp only [hmm]
      by_cases hm : optGet o "useMockData" = JSValue.bool false
      · simp only [if_pos hm]
      · simp only [if_neg hm]
  | failure e =>
    by_cases hm : optGet o "useMockData" = JSValue.bool false
    · simp only [if_pos hm]
    · simp only [if_neg hm]

/-- An upsert of a key absent from both lists preserves a value
difference under another key. -/
theorem upsert_diff {β : Type} (A B : List (String × β)) (k0 k : String)
    (x y v : β) (hk : k0 ≠ k) :
    ∃ A2 B2 : List (String × β),
      upsert (A ++ (k0, x) :: B) k v = A2 ++ (k0, x) :: B2 ∧
        upsert (A ++ (k0, y) :: B) k v = A2 ++ (k0, y) :: B2 := by
  unfold upsert
  have hbeq : (k0 == k) = false := by simpa using hk
  have hany : ((A ++ (k0, x) :: B).any (fun p => p.1 == k))
      = ((A ++ (k0, y) :: B).any (fun p => p.1 == k)) := by
    simp [List.any_append, List.any_cons, hbeq]
  by_cases hc : ((A ++ (k0, x) :: B).any (fun p => p.1 == k)) = true
  · rw [if_pos hc, if_pos (by rw [← hany]; exact hc)]
    refine ⟨A.map (fun p => if p.1 == k then (k, v) else p),
      B.map (fun p => if p.1 == k then (k, v) else p), ?_, ?_⟩
    · simp [hbeq]
      exact fun h2 => absurd h2 hk
    · simp [hbeq]
      exact fun h2 => absurd h2 hk
  · rw [if_neg hc, if_neg (by rw [← hany]; exact hc)]
    exact ⟨A, B ++ [(k, v)], by simp, by simp⟩

/-- Object-spread assignment of keys other than `k0` preserves a value
difference under `k0`. -/
theorem objAssign_diff {β : Type} (post : List (String × β)) (k0 : String) :
    ∀ (A B : List (String × β)) (x y : β), (∀ p ∈ post, p.1 ≠ k0) →
      ∃ A2 B2, objAssign (A ++ (k0, x) :: B) post = A2 ++ (k0, x) :: B2 ∧
        objAssign (A ++ (k0, y) :: B) post = A2 ++ (k0, y) :: B2 := by
  induction post with
  | nil =>
    intro A B x y h
    exact ⟨A, B, rfl, rfl⟩
  | cons p ps ih =>
    intro A B x y h
    obtain ⟨A2, B2, h1, h2⟩ := upsert_diff A B k0 p.1 x y p.2
      (Ne.symm (h p (List.mem_cons_self p ps)))
    obtain ⟨A3, B3, h3, h4⟩ := ih A2 B2 x y
      (fun q hq => h q (List.mem_cons_of_mem p hq))
    refine ⟨A3, B3, ?_, ?_⟩
    · have hstep : objAssign (A ++ (k0, x) :: B) (p :: ps)
          = objAssign (upsert (A ++ (k0, x) :: B) p.1 p.2) ps := rfl
      rw [hstep, h1]
      exact h3
    · have hstep : objAssign (A ++ (k0, y) :: B) (p :: ps)
          = objAssign (upsert (A ++ (k0, y) :: B) p.1 p.2) ps := rfl
      rw [hstep, h2]
      exact h4

/-- An upsert of an absent key appends the binding. -/
theorem upsert_absent {β : Type} (l : List (String × β)) (k : String) (v : β)
    (h : ∀ p ∈ l, p.1 ≠ k) : upsert l k v = l ++ [(k, v)] := by
  unfold upsert
  rw [if_neg ?hc]
  case hc =>
    simp only [List.any_eq_true, not_exists]
    intro p
    intro hcontr
    exact absurd (by simpa using hcontr.2) (h p hcontr.1)

/-- Upserting keys other than `k2` never introduces `k2`. -/
theorem upsert_keyNotIn {β : Type} (l : List (String × β)) (k k2 : String)
    (v : β) (hk : k ≠ k2) (h : ∀ p ∈ l, p.1 ≠ k2) :
    ∀ p ∈ upsert l k v, p.1 ≠ k2 := by
  unfold upsert
  split
  · intro p hp
    rcases List.mem_map.mp hp with ⟨q, hq, rfl⟩
    by_cases hqk : (q.1 == k) = true
    · simp only [hqk, if_true]
      exact hk
    · have hf : (q.1 == k) = false := by simpa using hqk
      simp only [hf, if_false]
      exact h q hq
  · intro p hp
    rcases List.mem_append.mp hp with hp1 | hp1
    · exact h p hp1
    · rcases List.mem_singleton.mp hp1 with rfl
      exact hk

/-- Spreading an object without `k2` keys over a base without `k2` keys
gives a list without `k2` keys. -/
theorem objAssign_keyNotIn {β : Type} (o : List (String × β)) (k2 : String) :
    ∀ (base : List (String × β)), (∀ p ∈ base, p.1 ≠ k2) →
      (∀ p ∈ o, p.1 ≠ k2) → ∀ p ∈ objAssign base o, p.1 ≠ k2 := by
  induction o with
  | nil =>
    intro base hb _
    exact hb
  | cons q qs ih =>
    intro base hb ho
    have hstep : objAssign base (q :: qs) = objAssign (upsert base q.1 q.2) qs :=
      rfl
    rw [hstep]
    exact ih _ (upsert_keyNotIn base q.1 k2 q.2
        (ho q (List.mem_cons_self q qs)) hb)
      (fun p hp => ho p (List.mem_cons_of_mem q hp))

/-- Serialization of a non-empty parameter list unfolds one component. -/
theorem serParams_cons_of_ne_nil (p : String × String)
    (L : List (String × String)) (h : L ≠ []) :
    serParams (p :: L) = encPair p ++ '&' :: serParams L := by
  cases L with
  | nil => exact absurd rfl h
  | cons q qs => rfl

/-- Two parameter lists of the same shape that differ in one value
serialize to different query strings. -/
theorem serParams_diff_ne (A B : List (String × String)) (k x y : String)
    (hxy : x ≠ y) :
    serParams (A ++ (k, x) :: B) ≠ serParams (A ++ (k, y) :: B) := by
  induction A with
  | nil =>
    cases B with
    | nil =>
      intro h
      have h2 : encPair (k, x) = encPair (k, y) := h
      unfold encPair at h2
      have h3 := List.append_cancel_left h2
      exact hxy (str_ext (List.cons.inj h3).2)
    | cons q qs =>
      intro h
      have h2 : encPair (k, x) ++ '&' :: serParams (q :: qs)
          = encPair (k, y) ++ '&' :: serParams (q :: qs) := h
      unfold encPair at h2
      simp only [List.append_assoc, List.cons_append] at h2
      have h3 := List.append_cancel_left h2
      have h4 := (List.cons.inj h3).2
      have hlen : x.data.length = y.data.length := by
        have h5 := congrArg List.length h4
        simp only [List.length_append, List.length_cons] at h5
        omega
      exact hxy (str_ext (List.append_inj h4 hlen).1)
  | cons p ps ih =>
    intro h
    apply ih
    simp only [List.cons_append] at h
    rw [serParams_cons_of_ne_nil _ _ (by simp),
      serParams_cons_of_ne_nil _ _ (by simp)] at h
    exact (List.cons.inj (List.append_cancel_left h)).2

/-- A shared prefix preserves distinctness of strings. -/
theorem append_left_ne (p a b : String) (h : a ≠ b) : p ++ a ≠ p ++ b := by
  intro e
  apply h
  apply str_ext
  have h2 := congrArg String.data e
  rw [data_append, data_append] at h2
  exact List.append_cancel_left h2

/-- Two options objects that differ only in the value bound to
`useMockData` produce stringified parameter lists of the same shape
differing only in that value. -/
theorem stringParams_diff (pre post : Options) (v1 v2 : JSValue)
    (hpre : ∀ p ∈ pre, p.1 ≠ "useMockData")
    (hpost : ∀ p ∈ post, p.1 ≠ "useMockData") :
    ∃ A B : List (String × String),
      stringParams (pre ++ ("useMockData", v1) :: post)
          = A ++ ("useMockData", urlVal v1) :: B ∧
        stringParams (pre ++ ("useMockData", v2) :: post)
          = A ++ ("useMockData", urlVal v2) :: B := by
  have hlim := optGet_diff pre post "useMockData" "limit" v1 v2 (by decide)
  have hoff := optGet_diff pre post "useMockData" "offset" v1 v2 (by decide)
  have hbase : buildParamsJS (pre ++ ("useMockData", v1) :: post)
      = objAssign (objAssign
          [("limit", jsOr (optGet (pre ++ ("useMockData", v1) :: post) "limit")
              (.num ⟨50, 0⟩)),
            ("offset", jsOr (optGet (pre ++ ("useMockData", v1) :: post)
              "offset") (.num ⟨0, 0⟩))] pre)
          (("useMockData", v1) :: post) := by
    unfold buildParamsJS objAssign
    rw [List.foldl_append]
  have hbase2 : buildParamsJS (pre ++ ("useMockData", v2) :: post)
      = objAssign (objAssign
          [("limit", jsOr (optGet (pre ++ ("useMockData", v1) :: post) "limit")
              (.num ⟨50, 0⟩)),
            ("offset", jsOr (optGet (pre ++ ("useMockData", v1) :: post)
              "offset") (.num ⟨0, 0⟩))] pre)
          (("useMockData", v2) :: post) := by
    unfold buildParamsJS objAssign
    rw [List.foldl_append, ← hlim, ← hoff]
  have hacc : ∀ p ∈ objAssign
      [("limit", jsOr (optGet (pre ++ ("useMockData", v1) :: post) "limit")
          (.num ⟨50, 0⟩)),
        ("offset", jsOr (optGet (pre ++ ("useMockData", v1) :: post)
          "offset") (.num ⟨0, 0⟩))] pre, p.1 ≠ "useMockData" := by
    apply objAssign_keyNotIn
    · intro p hp
      rcases List.mem_cons.mp hp with rfl | hp2
      · exact (by decide : ¬ ("limit" : String) = "useMockData")
      · rcases List.mem_cons.mp hp2 with rfl | hp3
        · exact (by decide : ¬ ("offset" : String) = "useMockData")
        · cases hp3
    · exact hpre
  obtain ⟨A2, B2, hx, hy⟩ := objAssign_diff post "useMockData"
    (objAssign
      [("limit", jsOr (optGet (pre ++ ("useMockData", v1) :: post) "limit")
          (.num ⟨50, 0⟩)),
        ("offset", jsOr (optGet (pre ++ ("useMockData", v1) :: post)
          "offset") (.num ⟨0, 0⟩))] pre)
    [] v1 v2 hpost
  refine ⟨A2.map (fun p => (p.1, urlVal p.2)),
    B2.map (fun p => (p.1, urlVal p.2)), ?_, ?_⟩
  · unfold stringParams
    rw [hbase]
    have hstep : objAssign (objAssign
        [("limit", jsOr (optGet (pre ++ ("useMockData", v1) :: post) "limit")
            (.num ⟨50, 0⟩)),
          ("offset", jsOr (optGet (pre ++ ("useMockData", v1) :: post)
            "offset") (.num ⟨0, 0⟩))] pre)
        (("useMockData", v1) :: post)
        = objAssign (upsert (objAssign
            [("limit", jsOr (optGet (pre ++ ("useMockData", v1) :: post)
                "limit") (.num ⟨50, 0⟩)),
              ("offset", jsOr (optGet (pre ++ ("useMockData", v1) :: post)
                "offset") (.num ⟨0, 0⟩))] pre) "useMockData" v1) post := rfl
    rw [hstep, upsert_absent _ _ _ hacc]
    rw [show (objAssign
        [("limit", jsOr (optGet (pre ++ ("useMockData", v1) :: post) "limit")
            (.num ⟨50, 0⟩)),
          ("offset", jsOr (optGet (pre ++ ("useMockData", v1) :: post)
            "offset") (.num ⟨0, 0⟩))] pre) ++ [("useMockData", v1)]
        = (objAssign
          [("limit", jsOr (optGet (pre ++ ("useMockData", v1) :: post)
              "limit") (.num ⟨50, 0⟩)),
            ("offset", jsOr (optGet (pre ++ ("useMockData", v1) :: post)
              "offset") (.num ⟨0, 0⟩))] pre) ++ ("useMockData", v1) :: []
      from rfl]
    rw [hx]
    simp [List.map_append]
  · unfold stringParams
    rw [hbase2]
    have hstep : objAssign (objAssign
        [("limit", jsOr (optGet (pre ++ ("useMockData", v1) :: post) "limit")
            (.num ⟨50, 0⟩)),
          ("offset", jsOr (optGet (pre ++ ("useMockData", v1) :: post)
            "offset") (.num ⟨0, 0⟩))] pre)
        (("useMockData", v2) :: post)
        = objAssign (upsert (objAssign
            [("limit", jsOr (optGet (pre ++ ("useMockData", v1) :: post)
                "limit") (.num ⟨50, 0⟩)),
              ("offset", jsOr (optGet (pre ++ ("useMockData", v1) :: post)
                "offset") (.num ⟨0, 0⟩))] pre) "useMockData" v2) post := rfl
    rw [hstep, upsert_absent _ _ _ hacc]
    rw [show (objAssign
        [("limit", jsOr (optGet (pre ++ ("useMockData", v1) :: post) "limit")
            (.num ⟨50, 0⟩)),
          ("offset", jsOr (optGet (pre ++ ("useMockData", v1) :: post)
            "offset") (.num ⟨0, 0⟩))] pre) ++ [("useMockData", v2)]
        = (objAssign
          [("limit", jsOr (optGet (pre ++ ("useMockData", v1) :: post)
              "limit") (.num ⟨50, 0⟩)),
            ("offset", jsOr (optGet (pre ++ ("useMockData", v1) :: post)
              "offset") (.num ⟨0, 0⟩))] pre) ++ ("useMockData", v2) :: []
      from rfl]
    rw [hy]
    simp [List.map_append]

/-! Claim C10 (confirmed). -/

/-- C10: `fetchProperties` spreads every field of the options object —
including the fallback flag `useMockData` — into the URL parameters: the
flag appears as a stringified query parameter, the request URL is the
base URL plus that query string, two option objects differing only in
the stringified flag value get distinct cache keys and distinct
request URLs, and a call with one flag value leaves a call with the
other still going to the network (they use distinct cache entries). -/
theorem options_useMockData_serialized (pre post : Options) (v1 v2 : JSValue)
    (c : List (String × List Listing)) (net1 net2 : NetResult)
    (hv : urlVal v1 ≠ urlVal v2)
    (hpre : ∀ p ∈ pre, p.1 ≠ "useMockData")
    (hpost : ∀ p ∈ post, p.1 ≠ "useMockData") :
    ("useMockData", urlVal v1)
        ∈ stringParams (pre ++ ("useMockData", v1) :: post) ∧
      requestUrl (pre ++ ("useMockData", v1) :: post)
        = "/api" ++ "/properties?"
            ++ paramsStr (pre ++ ("useMockData", v1) :: post) ∧
      cacheKeyProps (pre ++ ("useMockData", v1) :: post)
        ≠ cacheKeyProps (pre ++ ("useMockData", v2) :: post) ∧
      requestUrl (pre ++ ("useMockData", v1) :: post)
        ≠ requestUrl (pre ++ ("useMockData", v2) :: post) ∧
      (lookupA c (cacheKeyProps (pre ++ ("useMockData", v2) :: post)) = none →
        (fetchPropertiesM
            (fetchPropertiesM c (pre ++ ("useMockData", v1) :: post)
              net1).cache
            (pre ++ ("useMockData", v2) :: post) net2).networkUsed = true) := by
  obtain ⟨A, B, h1, h2⟩ := stringParams_diff pre post v1 v2 hpre hpost
  have hser : serParams (stringParams (pre ++ ("useMockData", v1) :: post))
      ≠ serParams (stringParams (pre ++ ("useMockData", v2) :: post)) := by
    rw [h1, h2]
    exact serParams_diff_ne A B "useMockData" _ _ hv
  have hmk : paramsStr (pre ++ ("useMockData", v1) :: post)
      ≠ paramsStr (pre ++ ("useMockData", v2) :: post) := by
    intro e
    exact hser (congrArg String.data e)
  have hkey : cacheKeyProps (pre ++ ("useMockData", v1) :: post)
      ≠ cacheKeyProps (pre ++ ("useMockData", v2) :: post) :=
    append_left_ne _ _ _ hmk
  refine ⟨?_, rfl, hkey, append_left_ne _ _ _ hmk, ?_⟩
  · rw [h1]
    exact List.mem_append.mpr (Or.inr (List.mem_cons_self _ _))
  · intro hmiss
    apply fetchProps_miss_network
    rw [fetchProps_cache_lookup c _ net1 _ (fun e => hkey e.symm)]
    exact hmiss

/-- C10, witness: the concrete option objects `{useMockData: true}` and
`{useMockData: false}` carry the flag in their parameter list, get
distinct cache keys and URLs, and a call with one still leaves the call
with the other hitting the network. -/
theorem options_useMockData_serialized_witness :
    ("useMockData", "true") ∈ stringParams [("useMockData", .bool true)] ∧
      cacheKeyProps [("useMockData", .bool true)]
        ≠ cacheKeyProps [("useMockData", .bool false)] ∧
      requestUrl [("useMockData", .bool true)]
        ≠ requestUrl [("useMockData", .bool false)] ∧
      (fetchPropertiesM
          (fetchPropertiesM [] [("useMockData", .bool true)]
            (.failure .networkError)).cache
          [("useMockData", .bool false)] (.failure .networkError)).networkUsed
        = true := by
  have h := options_useMockData_serialized [] [] (.bool true) (.bool false)
    [] (.failure .networkError) (.failure .networkError) (by decide)
    (fun p hp => absurd hp (List.not_mem_nil p))
    (fun p hp => absurd hp (List.not_mem_nil p))
  exact ⟨h.1, h.2.2.1, h.2.2.2.1, h.2.2.2.2 rfl⟩

end Slides
